import Mathlib

/-!
Verification of the qemacs Algol68 colorizer (`lang/algol68.c`).

The embedding models the two functions of the source file:

* `algol68_get_tag`  — extraction of a lowercase-folded ASCII tag;
* `algol68_colorize_line` — the per-line state-machine scanner.

Lines are lists of Unicode code points (`List Nat`).  The carried state is
the C bitfield, kept as a `Nat`.  `SET_STYLE` calls are modelled as emitted
spans `(start, stop, style)`; the style buffer semantics (`styleAt`) is the
last span covering a position.  The one place where the C code indexes the
line past its stated length (the function-call lookahead) is modelled with
an `Option` read: a read past the end yields the value 0 and raises the
`oob` flag of the result.
-/


namespace Algol68

/-- Modelled from the spec: `qe_isupper` from qe.h, ASCII uppercase test. -/
def qe_isupper (c : Nat) : Bool := 65 ≤ c && c ≤ 90

/-- Modelled from the spec: `qe_islower` from qe.h, ASCII lowercase test. -/
def qe_islower (c : Nat) : Bool := 97 ≤ c && c ≤ 122

/-- Modelled from the spec: `qe_tolower` from qe.h, ASCII lowercase folding. -/
def qe_tolower (c : Nat) : Nat := if qe_isupper c then c + 32 else c

/-- Modelled from the spec: `qe_isalpha` from qe.h, ASCII letter test. -/
def qe_isalpha (c : Nat) : Bool := qe_isupper c || qe_islower c

/-- Modelled from the spec: `qe_isdigit` from qe.h, ASCII digit test. -/
def qe_isdigit (c : Nat) : Bool := 48 ≤ c && c ≤ 57

/-- Modelled from the spec: `qe_isalnum` from qe.h, ASCII letter-or-digit test. -/
def qe_isalnum (c : Nat) : Bool := qe_isalpha c || qe_isdigit c

/-- Modelled from the spec: `qe_isalnum_` from qe.h: letter, digit or underscore
("word" characters of a tag). -/
def qe_isalnum_ (c : Nat) : Bool := qe_isalnum c || c == 95

/-- Modelled from the spec: `qe_isblank` from qe.h: space or tab. -/
def qe_isblank (c : Nat) : Bool := c == 32 || c == 9

/-- Clear the bits of mask `m` in `s` (C's `s &= ~m`).  `s &&& m` is exactly
the sub-bitfield of `s` selected by `m`, so subtracting it clears it. -/
def clearBits (s m : Nat) : Nat := s - (s &&& m)

/-! State bits, from the `IN_ALGOL68_*` enum of the source. -/

def IN_ALGOL68_COMMENT_COMMENT : Nat := 0x01
def IN_ALGOL68_COMMENT_CO : Nat := 0x02
def IN_ALGOL68_COMMENT_SHARP : Nat := 0x04
def IN_ALGOL68_COMMENT_CENT : Nat := 0x08
/-- Pound shares the flag slot of cent in the source (both are `0x08`). -/
def IN_ALGOL68_COMMENT_POUND : Nat := 0x08
def IN_ALGOL68_COMMENT_BRACES : Nat := 0x10
def IN_ALGOL68_COMMENT_NOTE : Nat := 0x20
def IN_ALGOL68_COMMENT_PR : Nat := 0x40
def IN_ALGOL68_COMMENT : Nat := 0x7F
def IN_ALGOL68_STRING : Nat := 0x80
def IN_ALGOL68_CONTINUATION : Nat := 0x100
def IN_ALGOL68_COMMENT_LEVEL : Nat := 0x200

/-! Style codes.  Modelled from the spec: the `QE_STYLE_*` values live in
qe.h; only their distinctness and the fact that `QE_STYLE_DEFAULT = 0`
(`style = 0` means "no style" in the scanner) matter. -/

def ALGOL68_STYLE_TEXT : Nat := 0
def ALGOL68_STYLE_KEYWORD : Nat := 1
def ALGOL68_STYLE_TYPE : Nat := 2
def ALGOL68_STYLE_PREPROCESS : Nat := 3
def ALGOL68_STYLE_COMMENT : Nat := 4
def ALGOL68_STYLE_STRING : Nat := 5
def ALGOL68_STYLE_IDENTIFIER : Nat := 6
def ALGOL68_STYLE_NUMBER : Nat := 7
def ALGOL68_STYLE_FUNCTION : Nat := 8

/-- Code points of a string literal, for writing lines and tags. -/
def cp (s : String) : List Nat := s.data.map Char.toNat

/-- The `algol68_keywords` table, split at its `|` separators
(`strfind` looks words up by exact `|`-delimited match). -/
def algol68_keywords : List (List Nat) :=
  ([ "priority", "thef",
     "btb", "ctb", "conj", "quote", "ct", "ctab", "either", "sign",
     "true", "false",
     "if", "then", "else", "elif", "fi",
     "case", "in", "out", "ouse", "esac",
     "nil", "skip", "empty",
     "mode", "op", "prio", "proc",
     "goto",
     "not", "up", "down", "lwb", "upb",
     "abs", "bin", "entier", "leng", "level", "odd", "repr", "round", "shorten",
     "shl", "shr", "up", "down", "lwb", "upb",
     "over", "mod", "elem",
     "lt", "le", "ge", "gt",
     "eq", "ne",
     "and", "or",
     "andf", "orf", "andth", "orel", "andthen", "orelse",
     "minusab", "plusab", "timesab", "divab", "overab", "modab", "plusto",
     "is", "isnt", "of", "at",
     "for", "from", "by", "upto", "downto", "to", "while", "do", "od",
     "par", "begin", "exit", "end",
     "struct", "union", "ref",
     "vector",
     "todo", "fixme", "xxx", "debug", "note",
     "decs", "context", "configinfo", "a68config", "keep", "finish", "use",
     "sysprocs", "iostate", "forall",
     "using", "environ", "foreach", "assert",
     "module", "def", "fed", "pub", "postlude", "access" ]).map cp

/-- The `algol68_types` table, split at its `|` separators. -/
def algol68_types : List (List Nat) :=
  ([ "flex", "heap", "loc", "long", "short",
     "bits", "bool", "bytes", "char", "compl", "int", "real", "complex",
     "sema", "string", "void",
     "channel", "file", "format" ]).map cp

/-- Modelled from the spec: `strfind` from util.c, exact word lookup in a
`|`-delimited table, here membership in the split table. -/
def strfind (table : List (List Nat)) (w : List Nat) : Bool := table.contains w

/-- Result of `algol68_get_tag`: the characters stored in `dest` (excluding
the terminator), whether a null terminator was stored, the case flags, and
the returned skip count `j - i`. -/
structure TagResult where
  kbuf : List Nat
  nullTerminated : Bool
  flags : Nat
  ret : Nat
deriving DecidableEq, Repr

/-- The `for (j = i;; j++)` loop of `algol68_get_tag`.  Each iteration first
stores `c` (lowercase-folded, truncated to a byte as by the C `(char)` cast)
when room remains (`pos + 1 < size`), recording `HAS_UPPER`, then stops if
`j ≥ n` or `str[j]` is not a word character, else loads `c = str[j]` and
advances `j`. -/
def algol68_tag_go (str : List Nat) (n size c : Nat) (dest : List Nat)
    (pos flags j : Nat) : List Nat × Nat × Nat × Nat :=
  let d2 := if pos + 1 < size then dest ++ [qe_tolower c % 256] else dest
  let p2 := if pos + 1 < size then pos + 1 else pos
  let f2 := if pos + 1 < size && qe_isupper c then flags ||| 1 else flags
  if h : j < n then
    let c2 := str.getD j 0
    if qe_isalnum_ c2 then algol68_tag_go str n size c2 d2 p2 f2 (j + 1)
    else (d2, p2, f2, j)
  else (d2, p2, f2, j)
termination_by n - j

/-- `algol68_get_tag` from the source: extract an ASCII tag into a bounded
buffer, lowercase-folded, returning how many source positions to skip. -/
def algol68_get_tag (size c : Nat) (str : List Nat) (i n : Nat) : TagResult :=
  let r := algol68_tag_go str n size c [] 0 0 i
  { kbuf := r.1, nullTerminated := decide (r.2.1 < size),
    flags := r.2.2.1, ret := r.2.2.2 - i }

/-- The word characters from position `i` of the line: maximal run
satisfying `qe_isalnum_`. -/
def wordChars (str : List Nat) (i : Nat) : List Nat :=
  (str.drop i).takeWhile (fun c => qe_isalnum_ c)

/-- Length of the maximal run of word characters starting at position `i`. -/
def wordRun (str : List Nat) (i : Nat) : Nat := (wordChars str i).length



/-- A `SET_STYLE` span: `(start, stop, style)` styling positions
`start ≤ p < stop`. -/
abbrev Span := Nat × Nat × Nat

/-- `SET_STYLE(sbuf, a, b, style)`: styles the half-open range `[a, b)`;
an empty range writes nothing. -/
def setStyle (a b sty : Nat) : List Span :=
  if a < b then [(a, b, sty)] else []

/-- Last-write-wins reading of a span list at position `p`
(the style buffer semantics of repeated `SET_STYLE` calls). -/
def styleAt (spans : List Span) (p : Nat) : Nat :=
  spans.foldl (fun acc s => if s.1 ≤ p ∧ p < s.2.1 then s.2.2 else acc) 0

/-- Result of scanning one line: emitted spans, the next carried state, and
whether the scan read the line array past its stated length. -/
structure ColorizeResult where
  spans : List Span
  state : Nat
  oob : Bool
deriving DecidableEq, Repr

/-- Read `str[k]`; past the end this is an out-of-bounds access in the C
code, modelled as value 0 with the flag set. -/
def readAt (str : List Nat) (k : Nat) : Nat × Bool :=
  match str.get? k with
  | some c => (c, false)
  | none => (0, true)

/-- The `in_comment_char` loop: consume until the delimiter `c` recurs
(closing the comment and clearing all comment bits) or the line ends.
Returns the updated state and position. -/
def charBody (str : List Nat) (c colstate i : Nat) : Nat × Nat :=
  if i < str.length then
    if c == str.getD i 0 then (clearBits colstate IN_ALGOL68_COMMENT, i + 1)
    else charBody str c colstate (i + 1)
  else (colstate, i)
termination_by str.length - i

/-- The `in_comment_brace` loop: `{` increments the level, `}` decrements
it, the comment closes when the level reaches 0; at line end the current
level is stored back into the state (`colstate |= level * 0x200`).
The C decrement `--level` is on an `int`; as in every state the scanner
itself produces, `level ≥ 1` holds at each decrement, where `Nat` and
`int` agree. -/
def braceBody (str : List Nat) (colstate level i : Nat) : Nat × Nat :=
  if i < str.length then
    let c := str.getD i 0
    if c == 123 then braceBody str colstate (level + 1) (i + 1)
    else if c == 125 then
      if level - 1 == 0 then (clearBits colstate IN_ALGOL68_COMMENT, i + 1)
      else braceBody str colstate (level - 1) (i + 1)
    else braceBody str colstate level (i + 1)
  else (colstate ||| level * IN_ALGOL68_COMMENT_LEVEL, i)
termination_by str.length - i

/-- The `in_string` loop: a backslash as the very last code point sets the
string-continuation bit; a quote clears it and closes; otherwise consume. -/
def stringBody (str : List Nat) (colstate i : Nat) : Nat × Nat :=
  if i < str.length then
    let c := str.getD i 0
    if c == 92 && i + 1 == str.length then (colstate ||| IN_ALGOL68_STRING, i + 1)
    else if c == 34 then (clearBits colstate IN_ALGOL68_STRING, i + 1)
    else stringBody str colstate (i + 1)
  else (colstate, i)
termination_by str.length - i

/-- The number-literal loop (`default:` case for digits): consume
alphanumerics, `.`, and a sign directly after an `e`/`E`. -/
def numBody (str : List Nat) (i : Nat) : Nat :=
  if i < str.length then
    let c := str.getD i 0
    if qe_isalnum c then numBody str (i + 1)
    else if c == 46 then numBody str (i + 1)
    else if (c == 43 || c == 45) && qe_tolower (str.getD (i - 1) 0) == 101 then
      numBody str (i + 1)
    else i
  else i
termination_by str.length - i

/-- The `in_comment_comment` / `in_comment_co` / `in_comment_pr` loops,
which differ only in the closing keyword `kw` and the body style `sty`:
scan whole tags; on the closing keyword, emit the body span `[start, j)`,
clear the comment bits and leave the keyword `[j, i)` to be styled as
keyword by the caller.  Returns `(spans, colstate, i, start, style)` as at
the `break` out of the loop. -/
def kwBody (str kw : List Nat) (sty colstate i start : Nat) :
    List Span × Nat × Nat × Nat × Nat :=
  if h : i < str.length then
    let c := str.getD i 0
    if qe_isalpha c then
      let j := i
      let t := algol68_get_tag 16 c str (i + 1) str.length
      let i2 := i + 1 + t.ret
      if t.kbuf == kw then
        (setStyle start j sty, clearBits colstate IN_ALGOL68_COMMENT, i2, j,
         ALGOL68_STYLE_KEYWORD)
      else kwBody str kw sty colstate i2 start
    else kwBody str kw sty colstate (i + 1) start
  else ([], colstate, i, start, sty)
termination_by str.length - i
decreasing_by
  all_goals omega

/-- The `in_comment_note` loop: like `kwBody` but nested: a `note` tag
increments the level, an `eton` tag decrements it, closing only at level 0.
At line end the level is stored back into the state.  As for `braceBody`,
`level ≥ 1` holds at each decrement in every reachable state. -/
def noteBody (str : List Nat) (colstate level i start : Nat) :
    List Span × Nat × Nat × Nat × Nat :=
  if h : i < str.length then
    let c := str.getD i 0
    if qe_isalpha c then
      let j := i
      let t := algol68_get_tag 16 c str (i + 1) str.length
      let i2 := i + 1 + t.ret
      if t.kbuf == cp ("note") then noteBody str colstate (level + 1) i2 start
      else if t.kbuf == cp ("eton") then
        if level - 1 == 0 then
          (setStyle start j ALGOL68_STYLE_COMMENT,
           clearBits colstate IN_ALGOL68_COMMENT, i2, j, ALGOL68_STYLE_KEYWORD)
        else noteBody str colstate (level - 1) i2 start
      else noteBody str colstate level i2 start
    else noteBody str colstate level (i + 1) start
  else ([], colstate ||| level * IN_ALGOL68_COMMENT_LEVEL, i, start,
        ALGOL68_STYLE_COMMENT)
termination_by str.length - i
decreasing_by
  all_goals omega

/-- The function-call lookahead of the identifier case: skip at most one
blank after the word, then test for `(` not followed by `*`.  These are the
reads that can index past the stated line length; the flag records that. -/
def funcLookahead (str : List Nat) (i : Nat) : Nat × Bool :=
  let r0 := readAt str i
  let k := if qe_isblank r0.1 then i + 1 else i
  let r1 := readAt str k
  if r1.1 == 40 then
    let r2 := readAt str (k + 1)
    (if r2.1 != 42 then ALGOL68_STYLE_FUNCTION else ALGOL68_STYLE_IDENTIFIER,
     r0.2 || r1.2 || r2.2)
  else (ALGOL68_STYLE_IDENTIFIER, r0.2 || r1.2)



/-! Positions only move forward: each loop body returns a position at least
its input position.  These bounds justify the termination of the main
scanning loop. -/

theorem charBody_pos_le (str : List Nat) (c colstate i : Nat) :
    i ≤ (charBody str c colstate i).2 := by
  induction i using charBody.induct str c colstate with
  | case1 x hx hc => rw [charBody]; simp_all
  | case2 x hx hc ih => rw [charBody]; simp only [if_pos hx, if_neg hc]; omega
  | case3 x hx => rw [charBody]; simp [hx]

theorem braceBody_pos_le (str : List Nat) (colstate level i : Nat) :
    i ≤ (braceBody str colstate level i).2 := by
  induction level, i using braceBody.induct str colstate <;>
    rw [braceBody] <;>
    first
      | (simp_all +zetaDelta; done)
      | (simp_all +zetaDelta; omega)
      | simp [*]

theorem stringBody_pos_le (str : List Nat) (colstate i : Nat) :
    i ≤ (stringBody str colstate i).2 := by
  induction i using stringBody.induct str colstate with
  | case1 x hx c h => rw [stringBody]; rw [if_pos hx, if_pos h]; omega
  | case2 x hx c h1 h2 => rw [stringBody]; rw [if_pos hx, if_neg h1, if_pos h2]; omega
  | case3 x hx c h1 h2 ih =>
    rw [stringBody]; rw [if_neg h1, if_neg h2]
    have hxl : x < str.length := hx
    rw [if_pos hxl]
    omega
  | case4 x hx => rw [stringBody]; simp [hx]

theorem numBody_pos_le (str : List Nat) (i : Nat) :
    i ≤ numBody str i := by
  induction i using numBody.induct str with
  | case1 x hx c h ih => rw [numBody]; rw [if_pos hx, if_pos h]; omega
  | case2 x hx c h1 h2 ih => rw [numBody]; rw [if_pos hx, if_neg h1, if_pos h2]; omega
  | case3 x hx c h1 h2 h3 ih =>
    rw [numBody]; rw [if_pos hx, if_neg h1, if_neg h2, if_pos h3]; omega
  | case4 x hx c h1 h2 h3 =>
    rw [numBody]; rw [if_pos hx, if_neg h1, if_neg h2, if_neg h3]
  | case5 x hx => rw [numBody]; simp [hx]

theorem kwBody_pos_le (str kw : List Nat) (sty colstate i start : Nat) :
    i ≤ (kwBody str kw sty colstate i start).2.2.1 := by
  induction i, start using kwBody.induct str kw sty colstate <;>
    rw [kwBody] <;>
    first
      | (simp_all +zetaDelta; done)
      | (simp_all +zetaDelta; omega)
      | simp [*]

theorem noteBody_pos_le (str : List Nat) (colstate level i start : Nat) :
    i ≤ (noteBody str colstate level i start).2.2.1 := by
  induction level, i, start using noteBody.induct str colstate <;>
    rw [noteBody] <;>
    first
      | (simp_all +zetaDelta; done)
      | (simp_all +zetaDelta; omega)
      | simp [*]


/-- The main `while (i < n)` scanning loop of `algol68_colorize_line`,
dispatching on the current code point exactly as the `switch` of the
source: single-character comments, brace comments, strings, `$` (ignored),
numbers, tags (broken tag / `note` / `comment` / `co` / `pr` / keyword /
type-or-uppercase / function-or-identifier lookahead), anything else
unstyled.  Emits the `SET_STYLE` span of each construct in order. -/
def mainLoop (str : List Nat) (colstate i : Nat) (oob : Bool) : ColorizeResult :=
  if h : i < str.length then
    let start := i
    let c := str.getD i 0
    if c == 35 then
      let r := charBody str c (colstate ||| IN_ALGOL68_COMMENT_SHARP) (i + 1)
      let rest := mainLoop str r.1 r.2 oob
      ⟨setStyle start r.2 ALGOL68_STYLE_COMMENT ++ rest.spans, rest.state, rest.oob⟩
    else if c == 162 then
      let r := charBody str c (colstate ||| IN_ALGOL68_COMMENT_CENT) (i + 1)
      let rest := mainLoop str r.1 r.2 oob
      ⟨setStyle start r.2 ALGOL68_STYLE_COMMENT ++ rest.spans, rest.state, rest.oob⟩
    else if c == 163 then
      let r := charBody str c (colstate ||| IN_ALGOL68_COMMENT_POUND) (i + 1)
      let rest := mainLoop str r.1 r.2 oob
      ⟨setStyle start r.2 ALGOL68_STYLE_COMMENT ++ rest.spans, rest.state, rest.oob⟩
    else if c == 123 then
      let r := braceBody str (colstate ||| IN_ALGOL68_COMMENT_BRACES) 1 (i + 1)
      let rest := mainLoop str r.1 r.2 oob
      ⟨setStyle start r.2 ALGOL68_STYLE_COMMENT ++ rest.spans, rest.state, rest.oob⟩
    else if c == 34 then
      let r := stringBody str colstate (i + 1)
      let rest := mainLoop str r.1 r.2 oob
      ⟨setStyle start r.2 ALGOL68_STYLE_STRING ++ rest.spans, rest.state, rest.oob⟩
    else if c == 36 then
      mainLoop str colstate (i + 1) oob
    else if qe_isdigit c then
      let i2 := numBody str (i + 1)
      let rest := mainLoop str colstate i2 oob
      ⟨setStyle start i2 ALGOL68_STYLE_NUMBER ++ rest.spans, rest.state, rest.oob⟩
    else if qe_isalpha c then
      let t := algol68_get_tag 16 c str (i + 1) str.length
      let i2 := i + 1 + t.ret
      if i2 == str.length - 1 && str.getD i2 0 == 92 then
        let sty := if (t.flags &&& 1) != 0 then ALGOL68_STYLE_TYPE
                   else ALGOL68_STYLE_IDENTIFIER
        let rest := mainLoop str (colstate ||| IN_ALGOL68_CONTINUATION) (i2 + 1) oob
        ⟨setStyle start (i2 + 1) sty ++ rest.spans, rest.state, rest.oob⟩
      else if t.kbuf == cp ("note") then
        let r := noteBody str (colstate ||| IN_ALGOL68_COMMENT_NOTE) 1 i2 i2
        let rest := mainLoop str r.2.1 r.2.2.1 oob
        ⟨setStyle start i2 ALGOL68_STYLE_KEYWORD ++ r.1 ++
           setStyle r.2.2.2.1 r.2.2.1 r.2.2.2.2 ++ rest.spans, rest.state, rest.oob⟩
      else if t.kbuf == cp ("comment") then
        let r := kwBody str (cp ("comment")) ALGOL68_STYLE_COMMENT
                   (colstate ||| IN_ALGOL68_COMMENT_COMMENT) i2 i2
        let rest := mainLoop str r.2.1 r.2.2.1 oob
        ⟨setStyle start i2 ALGOL68_STYLE_KEYWORD ++ r.1 ++
           setStyle r.2.2.2.1 r.2.2.1 r.2.2.2.2 ++ rest.spans, rest.state, rest.oob⟩
      else if t.kbuf == cp ("co") then
        let r := kwBody str (cp ("co")) ALGOL68_STYLE_COMMENT
                   (colstate ||| IN_ALGOL68_COMMENT_CO) i2 i2
        let rest := mainLoop str r.2.1 r.2.2.1 oob
        ⟨setStyle start i2 ALGOL68_STYLE_KEYWORD ++ r.1 ++
           setStyle r.2.2.2.1 r.2.2.1 r.2.2.2.2 ++ rest.spans, rest.state, rest.oob⟩
      else if t.kbuf == cp ("pr") then
        let r := kwBody str (cp ("pr")) ALGOL68_STYLE_PREPROCESS
                   (colstate ||| IN_ALGOL68_COMMENT_PR) i2 i2
        let rest := mainLoop str r.2.1 r.2.2.1 oob
        ⟨setStyle start i2 ALGOL68_STYLE_KEYWORD ++ r.1 ++
           setStyle r.2.2.2.1 r.2.2.1 r.2.2.2.2 ++ rest.spans, rest.state, rest.oob⟩
      else if strfind algol68_keywords t.kbuf then
        let rest := mainLoop str colstate i2 oob
        ⟨setStyle start i2 ALGOL68_STYLE_KEYWORD ++ rest.spans, rest.state, rest.oob⟩
      else if strfind algol68_types t.kbuf || (t.flags &&& 1) != 0 then
        let rest := mainLoop str colstate i2 oob
        ⟨setStyle start i2 ALGOL68_STYLE_TYPE ++ rest.spans, rest.state, rest.oob⟩
      else
        let la := funcLookahead str i2
        let rest := mainLoop str colstate i2 (oob || la.2)
        ⟨setStyle start i2 la.1 ++ rest.spans, rest.state, rest.oob⟩
    else
      mainLoop str colstate (i + 1) oob
  else ⟨[], colstate, oob⟩
termination_by str.length - i
decreasing_by
  · have := charBody_pos_le str (str.getD i 0) (colstate ||| IN_ALGOL68_COMMENT_SHARP) (i + 1)
    omega
  · have := charBody_pos_le str (str.getD i 0) (colstate ||| IN_ALGOL68_COMMENT_CENT) (i + 1)
    omega
  · have := charBody_pos_le str (str.getD i 0) (colstate ||| IN_ALGOL68_COMMENT_POUND) (i + 1)
    omega
  · have := braceBody_pos_le str (colstate ||| IN_ALGOL68_COMMENT_BRACES) 1 (i + 1)
    omega
  · have := stringBody_pos_le str colstate (i + 1)
    omega
  · omega
  · have := numBody_pos_le str (i + 1)
    omega
  · omega
  · have := noteBody_pos_le str (colstate ||| IN_ALGOL68_COMMENT_NOTE) 1
      (i + 1 + (algol68_get_tag 16 (str.getD i 0) str (i + 1) str.length).ret)
      (i + 1 + (algol68_get_tag 16 (str.getD i 0) str (i + 1) str.length).ret)
    omega
  · have := kwBody_pos_le str (cp ("comment")) ALGOL68_STYLE_COMMENT
      (colstate ||| IN_ALGOL68_COMMENT_COMMENT)
      (i + 1 + (algol68_get_tag 16 (str.getD i 0) str (i + 1) str.length).ret)
      (i + 1 + (algol68_get_tag 16 (str.getD i 0) str (i + 1) str.length).ret)
    omega
  · have := kwBody_pos_le str (cp ("co")) ALGOL68_STYLE_COMMENT
      (colstate ||| IN_ALGOL68_COMMENT_CO)
      (i + 1 + (algol68_get_tag 16 (str.getD i 0) str (i + 1) str.length).ret)
      (i + 1 + (algol68_get_tag 16 (str.getD i 0) str (i + 1) str.length).ret)
    omega
  · have := kwBody_pos_le str (cp ("pr")) ALGOL68_STYLE_PREPROCESS
      (colstate ||| IN_ALGOL68_COMMENT_PR)
      (i + 1 + (algol68_get_tag 16 (str.getD i 0) str (i + 1) str.length).ret)
      (i + 1 + (algol68_get_tag 16 (str.getD i 0) str (i + 1) str.length).ret)
    omega
  · omega
  · omega
  · omega


end Algol68

namespace Algol68

/-- `algol68_colorize_line` from the source.  The entry dispatch: resume an
open comment body (in the priority order of the flag cascade: COMMENT, CO,
NOTE, PR, braces, `#`, cent — the pound test is dead since pound shares the
cent bit), else an open string, else a broken tag, else scan from column 0.
The nesting level is unpacked from the state bits above `0x200` first.
Returns the spans, the next carried state and the out-of-bounds flag. -/
def algol68_colorize_line (str : List Nat) (colstate0 : Nat) : ColorizeResult :=
  if (colstate0 &&& IN_ALGOL68_COMMENT) != 0 then
    let level := colstate0 / IN_ALGOL68_COMMENT_LEVEL
    let colstate := clearBits colstate0 (0xFF * IN_ALGOL68_COMMENT_LEVEL)
    if (colstate &&& IN_ALGOL68_COMMENT_COMMENT) != 0 then
      let r := kwBody str (cp ("comment")) ALGOL68_STYLE_COMMENT colstate 0 0
      let rest := mainLoop str r.2.1 r.2.2.1 false
      ⟨r.1 ++ setStyle r.2.2.2.1 r.2.2.1 r.2.2.2.2 ++ rest.spans, rest.state, rest.oob⟩
    else if (colstate &&& IN_ALGOL68_COMMENT_CO) != 0 then
      let r := kwBody str (cp ("co")) ALGOL68_STYLE_COMMENT colstate 0 0
      let rest := mainLoop str r.2.1 r.2.2.1 false
      ⟨r.1 ++ setStyle r.2.2.2.1 r.2.2.1 r.2.2.2.2 ++ rest.spans, rest.state, rest.oob⟩
    else if (colstate &&& IN_ALGOL68_COMMENT_NOTE) != 0 then
      let r := noteBody str colstate level 0 0
      let rest := mainLoop str r.2.1 r.2.2.1 false
      ⟨r.1 ++ setStyle r.2.2.2.1 r.2.2.1 r.2.2.2.2 ++ rest.spans, rest.state, rest.oob⟩
    else if (colstate &&& IN_ALGOL68_COMMENT_PR) != 0 then
      let r := kwBody str (cp ("pr")) ALGOL68_STYLE_PREPROCESS colstate 0 0
      let rest := mainLoop str r.2.1 r.2.2.1 false
      ⟨r.1 ++ setStyle r.2.2.2.1 r.2.2.1 r.2.2.2.2 ++ rest.spans, rest.state, rest.oob⟩
    else if (colstate &&& IN_ALGOL68_COMMENT_BRACES) != 0 then
      let r := braceBody str colstate level 0
      let rest := mainLoop str r.1 r.2 false
      ⟨setStyle 0 r.2 ALGOL68_STYLE_COMMENT ++ rest.spans, rest.state, rest.oob⟩
    else if (colstate &&& IN_ALGOL68_COMMENT_SHARP) != 0 then
      let r := charBody str 35 colstate 0
      let rest := mainLoop str r.1 r.2 false
      ⟨setStyle 0 r.2 ALGOL68_STYLE_COMMENT ++ rest.spans, rest.state, rest.oob⟩
    else if (colstate &&& IN_ALGOL68_COMMENT_CENT) != 0 then
      let r := charBody str 162 colstate 0
      let rest := mainLoop str r.1 r.2 false
      ⟨setStyle 0 r.2 ALGOL68_STYLE_COMMENT ++ rest.spans, rest.state, rest.oob⟩
    else if (colstate &&& IN_ALGOL68_COMMENT_POUND) != 0 then
      -- dead branch: the pound flag is the cent flag, tested just above
      let r := charBody str 163 colstate 0
      let rest := mainLoop str r.1 r.2 false
      ⟨setStyle 0 r.2 ALGOL68_STYLE_COMMENT ++ rest.spans, rest.state, rest.oob⟩
    else
      -- unreachable: the tested bits cover all of IN_ALGOL68_COMMENT
      mainLoop str (clearBits colstate IN_ALGOL68_COMMENT) 0 false
  else if (colstate0 &&& IN_ALGOL68_STRING) != 0 then
    let r := stringBody str colstate0 0
    let rest := mainLoop str r.1 r.2 false
    ⟨setStyle 0 r.2 ALGOL68_STYLE_STRING ++ rest.spans, rest.state, rest.oob⟩
  else if (colstate0 &&& IN_ALGOL68_CONTINUATION) != 0 then
    let colstate := clearBits colstate0 IN_ALGOL68_CONTINUATION
    if 0 < str.length && qe_isalnum_ (str.getD 0 0) then
      let c := str.getD 0 0
      let t := algol68_get_tag 16 c str 1 str.length
      let i2 := 1 + t.ret
      let sty := if (t.flags &&& 1) != 0 then ALGOL68_STYLE_TYPE
                 else ALGOL68_STYLE_IDENTIFIER
      let rest := mainLoop str (colstate ||| IN_ALGOL68_CONTINUATION) i2 false
      ⟨setStyle 0 i2 sty ++ rest.spans, rest.state, rest.oob⟩
    else mainLoop str colstate 0 false
  else mainLoop str colstate0 0 false

end Algol68

namespace Algol68

/-- The byte actually stored by the tag loop for an input code point:
lowercase-folded, truncated by the C `(char)` cast. -/
def fold8 (c : Nat) : Nat := qe_tolower c % 256

theorem getD_eq_getElem_of_lt {str : List Nat} {j : Nat} (hj : j < str.length) :
    str.getD j 0 = str[j] := by
  simp [List.getD_eq_getElem?_getD, List.getElem?_eq_getElem hj]

theorem wordChars_cons {str : List Nat} {j : Nat} (hj : j < str.length)
    (h : qe_isalnum_ (str.getD j 0) = true) :
    wordChars str j = str.getD j 0 :: wordChars str (j + 1) := by
  unfold wordChars
  rw [List.drop_eq_getElem_cons hj, List.takeWhile_cons]
  have h2 : qe_isalnum_ str[j] = true := by rw [← getD_eq_getElem_of_lt hj]; exact h
  rw [if_pos h2, getD_eq_getElem_of_lt hj]

theorem wordChars_nil_of_not {str : List Nat} {j : Nat} (hj : j < str.length)
    (h : ¬qe_isalnum_ (str.getD j 0) = true) :
    wordChars str j = [] := by
  unfold wordChars
  rw [List.drop_eq_getElem_cons hj, List.takeWhile_cons]
  have h2 : ¬qe_isalnum_ str[j] = true := by
    intro hc
    exact h (by rw [getD_eq_getElem_of_lt hj]; exact hc)
  rw [if_neg h2]

theorem wordChars_nil_of_ge {str : List Nat} {j : Nat} (hj : str.length ≤ j) :
    wordChars str j = [] := by
  unfold wordChars
  rw [List.drop_eq_nil_iff.mpr (by omega)]
  rfl

theorem lor_one_lor_bit (flags : Nat) (b : Bool) :
    flags ||| 1 ||| (if b then 1 else 0) = flags ||| 1 := by
  have h11 : (1 : Nat) ||| 1 = 1 := by decide
  cases b
  · simp
  · rw [if_pos rfl, Nat.or_assoc, h11]

/-- The tuple a single store-then-stop step of the tag loop produces,
rewritten in closed form: at most one character (the seed) is stored, when
room remains. -/
theorem tag_stop_eq (size c : Nat) (dest : List Nat) (pos flags : Nat) :
    ((if pos + 1 < size then dest ++ [qe_tolower c % 256] else dest) =
      dest ++ ((List.map fold8 [c]).take (size - 1 - pos)))
    ∧ ((if pos + 1 < size then pos + 1 else pos) =
      pos + ((List.map fold8 [c]).take (size - 1 - pos)).length)
    ∧ ((if (decide (pos + 1 < size) && qe_isupper c) = true then flags ||| 1 else flags) =
      flags ||| (if ([c].take (size - 1 - pos)).any qe_isupper then 1 else 0)) := by
  by_cases hroom : pos + 1 < size
  · have hk : size - 1 - pos = (size - 2 - pos) + 1 := by omega
    refine ⟨?_, ?_, ?_⟩
    · rw [if_pos hroom, hk]
      simp [fold8]
    · rw [if_pos hroom, hk]
      simp
    · rw [hk]
      simp only [List.take_succ_cons, List.take_nil, List.any_cons, List.any_nil,
        Bool.or_false, decide_eq_true hroom, Bool.true_and]
      cases hu : qe_isupper c
      · simp
      · rw [if_pos rfl, if_pos rfl]
  · have hk : size - 1 - pos = 0 := by omega
    refine ⟨?_, ?_, ?_⟩
    · rw [if_neg hroom, hk]
      simp
    · rw [if_neg hroom, hk]
      simp
    · rw [hk]
      simp only [List.take_zero, List.any_nil, Bool.false_eq_true, if_false, Nat.or_zero]
      rw [if_neg]
      simp [hroom]

/-- Full characterization of the tag-extraction loop: the stored bytes are
the lowercase-folded prefix of the word (seed first) that fits the room
left, the position advances by the number stored, the `HAS_UPPER` flag
records an uppercase letter among the *stored* characters, and the final
scan index is past the whole word run regardless of the buffer. -/
theorem algol68_tag_go_spec (str : List Nat) (size : Nat)
    (c : Nat) (dest : List Nat) (pos flags j : Nat) :
    algol68_tag_go str str.length size c dest pos flags j =
      (dest ++ ((c :: wordChars str j).map fold8).take (size - 1 - pos),
       pos + (((c :: wordChars str j).map fold8).take (size - 1 - pos)).length,
       flags ||| (if ((c :: wordChars str j).take (size - 1 - pos)).any qe_isupper
                  then 1 else 0),
       j + wordRun str j) := by
  induction c, dest, pos, flags, j using algol68_tag_go.induct str str.length size with
  | case1 c dest pos flags j d2 p2 f2 hj c2 h ih =>
    rw [algol68_tag_go, dif_pos hj, if_pos h]
    refine ih.trans ?_
    simp +zetaDelta only []
    simp only [dite_eq_ite]
    have hwc : wordChars str j = str.getD j 0 :: wordChars str (j + 1) :=
      wordChars_cons hj h
    have hrun : wordRun str j = wordRun str (j + 1) + 1 := by
      unfold wordRun
      rw [hwc]
      simp
    rw [Prod.mk.injEq, Prod.mk.injEq, Prod.mk.injEq]
    by_cases hroom : pos + 1 < size
    · have hk : size - 1 - pos = (size - 2 - pos) + 1 := by omega
      have hp2 : size - 1 - (pos + 1) = size - 2 - pos := by omega
      refine ⟨?_, ?_, ?_, ?_⟩
      · simp only [if_pos hroom, hwc, hp2, hk, List.map_cons, List.take_succ_cons]
        simp [fold8]
      · simp only [if_pos hroom, hwc, hp2, hk, List.map_cons, List.take_succ_cons,
          List.length_cons, List.length_take, List.length_map]
        omega
      · simp only [if_pos hroom, hwc, hp2, hk, List.take_succ_cons, List.any_cons,
          decide_eq_true hroom, Bool.true_and]
        cases hu : qe_isupper c
        · simp
        · simp only [Bool.true_or, if_pos rfl]
          exact lor_one_lor_bit flags _
      · omega
    · have hk : size - 1 - pos = 0 := by omega
      refine ⟨?_, ?_, ?_, ?_⟩
      · simp only [if_neg hroom, hk, List.take_zero]
      · simp only [if_neg hroom, hk, List.take_zero]
      · simp only [if_neg hroom, hk, List.take_zero, List.any_nil,
          Bool.false_eq_true, if_false, Nat.or_zero]
        rw [if_neg]
        simp [hroom]
      · omega
  | case2 c dest pos flags j hj c2 h =>
    rw [algol68_tag_go, dif_pos hj, if_neg h]
    have hwc : wordChars str j = [] := wordChars_nil_of_not hj h
    have h0 := tag_stop_eq size c dest pos flags
    have hrun : wordRun str j = 0 := by unfold wordRun; rw [hwc]; rfl
    rw [Prod.mk.injEq, Prod.mk.injEq, Prod.mk.injEq, hwc, hrun]
    exact ⟨h0.1, h0.2.1, h0.2.2, by omega⟩
  | case3 c dest pos flags j hj =>
    rw [algol68_tag_go, dif_neg hj]
    have hwc : wordChars str j = [] := wordChars_nil_of_ge (by omega)
    have h0 := tag_stop_eq size c dest pos flags
    have hrun : wordRun str j = 0 := by unfold wordRun; rw [hwc]; rfl
    rw [Prod.mk.injEq, Prod.mk.injEq, Prod.mk.injEq, hwc, hrun]
    exact ⟨h0.1, h0.2.1, h0.2.2, by omega⟩

end Algol68

namespace Algol68

/-- `algol68_get_tag` in closed form: the buffer receives the folded word
prefix that fits, a terminator is stored whenever the capacity is positive,
`HAS_UPPER` reflects the stored prefix, and the returned skip count is the
length of the word-character run at the given offset — independent of the
buffer capacity. -/
theorem algol68_get_tag_spec (size c : Nat) (str : List Nat) (i : Nat) :
    algol68_get_tag size c str i str.length =
      { kbuf := ((c :: wordChars str i).map fold8).take (size - 1),
        nullTerminated := decide (0 < size),
        flags := if ((c :: wordChars str i).take (size - 1)).any qe_isupper
                 then 1 else 0,
        ret := wordRun str i } := by
  unfold algol68_get_tag
  rw [algol68_tag_go_spec]
  simp only [List.nil_append, Nat.zero_add, Nat.zero_or]
  rw [TagResult.mk.injEq]
  refine ⟨by rw [Nat.sub_zero], ?_, by rw [Nat.sub_zero], by omega⟩
  rw [Nat.sub_zero, decide_eq_decide]
  simp only [List.length_take, List.length_map, List.length_cons]
  omega

theorem fold8_eq_tolower {x : Nat} (h : qe_isalnum_ x = true) :
    fold8 x = qe_tolower x := by
  unfold fold8 qe_tolower
  unfold qe_isalnum_ qe_isalnum qe_isalpha qe_islower qe_isupper qe_isdigit at *
  simp only [Bool.or_eq_true, Bool.and_eq_true, decide_eq_true_eq, beq_iff_eq] at h
  rcases h with ((h | h) | h) | h <;> split <;> omega

/-- On a word (an alphabetic seed and its run of word characters) the byte
stored by the loop is plain lowercase folding: no truncation occurs. -/
theorem map_fold8_word {c : Nat} {str : List Nat} {i : Nat}
    (hc : qe_isalpha c = true) :
    (c :: wordChars str i).map fold8 = (c :: wordChars str i).map qe_tolower := by
  have hcw : qe_isalnum_ c = true := by
    unfold qe_isalnum_ qe_isalnum
    simp [hc]
  rw [List.map_cons, List.map_cons, fold8_eq_tolower hcw]
  congr 1
  apply List.map_congr_left
  intro x hx
  have hxw : qe_isalnum_ x = true := List.mem_takeWhile_imp hx
  exact fold8_eq_tolower hxw

theorem take_eq_short {l w : List Nat} {n : Nat} (hw : w.length < n) :
    l.take n = w ↔ l = w := by
  constructor
  · intro h
    by_cases hl : l.length ≤ n
    · rwa [List.take_of_length_le hl] at h
    · exfalso
      have := congrArg List.length h
      simp only [List.length_take] at this
      omega
  · intro h
    subst h
    exact List.take_of_length_le (by omega)

theorem length_takeWhile_le (p : Nat → Bool) :
    ∀ l : List Nat, (l.takeWhile p).length ≤ l.length := by
  intro l
  induction l with
  | nil => simp
  | cons a l ih =>
    rw [List.takeWhile_cons]
    split
    · simpa using ih
    · simp

/-- The run of word characters fits in the remaining line. -/
theorem wordRun_le (str : List Nat) (i : Nat) :
    wordRun str i ≤ str.length - i := by
  unfold wordRun wordChars
  calc ((str.drop i).takeWhile (fun c => qe_isalnum_ c)).length
      ≤ (str.drop i).length := length_takeWhile_le _ _
    _ = str.length - i := List.length_drop i str

end Algol68

namespace Algol68

/-- Modelled from the spec: index of the first occurrence of the delimiter
`d` in a character list, if any. -/
def firstOcc (d : Nat) : List Nat → Option Nat
  | [] => none
  | c :: cs => if c = d then some 0 else (firstOcc d cs).map (· + 1)

/-- The single-character comment loop closes exactly at the first later
occurrence of its delimiter (clearing every comment bit), and otherwise
consumes the rest of the line leaving the state untouched. -/
theorem charBody_spec (str : List Nat) (c colstate : Nat) :
    ∀ i, i ≤ str.length →
    charBody str c colstate i =
      match firstOcc c (str.drop i) with
      | some k => (clearBits colstate IN_ALGOL68_COMMENT, i + k + 1)
      | none => (colstate, str.length) := by
  intro i
  induction i using charBody.induct str c colstate with
  | case1 x hx hc =>
    intro hi
    rw [charBody, if_pos hx, if_pos hc]
    rw [List.drop_eq_getElem_cons hx, firstOcc]
    have : str[x] = c := by
      rw [← getD_eq_getElem_of_lt hx]
      exact (beq_iff_eq.mp hc).symm
    rw [if_pos this]
  | case2 x hx hc ih =>
    intro hi
    rw [charBody, if_pos hx, if_neg hc]
    rw [List.drop_eq_getElem_cons hx, firstOcc]
    have : ¬str[x] = c := by
      rw [← getD_eq_getElem_of_lt hx]
      intro he
      exact hc (beq_iff_eq.mpr he.symm)
    rw [if_neg this, ih (by omega)]
    cases firstOcc c (str.drop (x + 1)) with
    | none => rfl
    | some k =>
      have hm : Option.map (fun y => y + 1) (some k) = some (k + 1) := rfl
      rw [hm, Prod.mk.injEq]
      exact ⟨rfl, by omega⟩
  | case3 x hx =>
    intro hi
    have hx2 : x = str.length := by omega
    rw [charBody, if_neg hx, hx2, List.drop_length, firstOcc]

end Algol68

namespace Algol68

/-- Lift a bracket-comment outcome over one consumed character. -/
def bumpBrace : Nat ⊕ Nat → Nat ⊕ Nat
  | Sum.inl k => Sum.inl (k + 1)
  | Sum.inr l => Sum.inr l

/-- Modelled from the spec: the bracket-comment rule.  Scanning the rest of
the line at nesting level `level`, a `{` increments the level, a `}`
decrements it and closes the comment when the level reaches 0
(`Sum.inl k` = closed after consuming `k` characters), and reaching the end
of the line leaves the comment open at the current level (`Sum.inr`). -/
def specBraceRun : List Nat → Nat → Nat ⊕ Nat
  | [], level => Sum.inr level
  | c :: cs, level =>
    if c = 123 then bumpBrace (specBraceRun cs (level + 1))
    else if c = 125 then
      if level = 1 then Sum.inl 1
      else bumpBrace (specBraceRun cs (level - 1))
    else bumpBrace (specBraceRun cs level)

/-- The brace-comment loop refines the spec rule: it closes exactly where
the level fold reaches zero (clearing the comment bits), or consumes the
line and stores the pending level above bit 9 of the state. -/
theorem braceBody_spec (str : List Nat) (colstate : Nat) :
    ∀ level i, 1 ≤ level → i ≤ str.length →
    braceBody str colstate level i =
      match specBraceRun (str.drop i) level with
      | Sum.inl k => (clearBits colstate IN_ALGOL68_COMMENT, i + k)
      | Sum.inr l => (colstate ||| l * IN_ALGOL68_COMMENT_LEVEL, str.length) := by
  intro level i
  induction level, i using braceBody.induct str colstate with
  | case1 level x hx c hc ih =>
    intro hlev hi
    rw [braceBody, if_pos hx, if_pos hc]
    rw [List.drop_eq_getElem_cons hx, specBraceRun]
    have hcv : str[x] = 123 := by
      rw [← getD_eq_getElem_of_lt hx]
      exact beq_iff_eq.mp hc
    rw [if_pos hcv, ih (by omega) (by omega)]
    cases specBraceRun (str.drop (x + 1)) (level + 1) with
    | inl k => rw [bumpBrace, Prod.mk.injEq]; exact ⟨rfl, by omega⟩
    | inr l => rw [bumpBrace]
  | case2 level x hx c hc hc2 hl =>
    intro hlev hi
    rw [braceBody, if_pos hx, if_neg hc, if_pos hc2, if_pos hl]
    rw [List.drop_eq_getElem_cons hx, specBraceRun]
    have hcv : ¬str[x] = 123 := by
      rw [← getD_eq_getElem_of_lt hx]
      intro he
      exact hc (beq_iff_eq.mpr he)
    have hcv2 : str[x] = 125 := by
      rw [← getD_eq_getElem_of_lt hx]
      exact beq_iff_eq.mp hc2
    have hl1 : level = 1 := by
      have := beq_iff_eq.mp hl
      omega
    rw [if_neg hcv, if_pos hcv2, if_pos hl1]
  | case3 level x hx c hc hc2 hl ih =>
    intro hlev hi
    rw [braceBody, if_pos hx, if_neg hc, if_pos hc2, if_neg hl]
    rw [List.drop_eq_getElem_cons hx, specBraceRun]
    have hcv : ¬str[x] = 123 := by
      rw [← getD_eq_getElem_of_lt hx]
      intro he
      exact hc (beq_iff_eq.mpr he)
    have hcv2 : str[x] = 125 := by
      rw [← getD_eq_getElem_of_lt hx]
      exact beq_iff_eq.mp hc2
    have hl1 : ¬level = 1 := by
      intro he
      apply hl
      rw [he]
      rfl
    rw [if_neg hcv, if_pos hcv2, if_neg hl1]
    have hlev2 : 1 ≤ level - 1 := by
      have hne : ¬level - 1 = 0 := by
        intro h0
        apply hl
        rw [h0]
        rfl
      omega
    rw [ih hlev2 (by omega)]
    cases specBraceRun (str.drop (x + 1)) (level - 1) with
    | inl k => rw [bumpBrace, Prod.mk.injEq]; exact ⟨rfl, by omega⟩
    | inr l => rw [bumpBrace]
  | case4 level x hx c hc hc2 ih =>
    intro hlev hi
    rw [braceBody, if_pos hx, if_neg hc, if_neg hc2]
    rw [List.drop_eq_getElem_cons hx, specBraceRun]
    have hcv : ¬str[x] = 123 := by
      rw [← getD_eq_getElem_of_lt hx]
      intro he
      exact hc (beq_iff_eq.mpr he)
    have hcv2 : ¬str[x] = 125 := by
      rw [← getD_eq_getElem_of_lt hx]
      intro he
      exact hc2 (beq_iff_eq.mpr he)
    rw [if_neg hcv, if_neg hcv2, ih hlev (by omega)]
    cases specBraceRun (str.drop (x + 1)) level with
    | inl k => rw [bumpBrace, Prod.mk.injEq]; exact ⟨rfl, by omega⟩
    | inr l => rw [bumpBrace]
  | case5 level x hx =>
    intro hlev hi
    have hx2 : x = str.length := by omega
    rw [braceBody, if_neg hx, hx2, List.drop_length, specBraceRun]

end Algol68

namespace Algol68

/-- Outcome of scanning a line suffix inside a string literal. -/
inductive StringRunOut where
  | closed (k : Nat)
  | escaped
  | ended
deriving DecidableEq, Repr

/-- Lift a string-scan outcome over one consumed character. -/
def bumpString : StringRunOut → StringRunOut
  | .closed k => .closed (k + 1)
  | .escaped => .escaped
  | .ended => .ended

/-- Modelled from the spec: the string rule.  The literal closes at the
next `"` (`closed k` = closed after consuming `k` characters, the quote
included); a backslash as the very last code point of the line leaves the
string open across the line break (`escaped`); otherwise the line just
ends inside the literal with no continuation (`ended`).  No other escape
processing exists. -/
def specStringRun : List Nat → StringRunOut
  | [] => .ended
  | c :: cs =>
    if c = 92 ∧ cs = [] then .escaped
    else if c = 34 then .closed 1
    else bumpString (specStringRun cs)

/-- The string loop refines the spec rule: it clears the continuation flag
exactly at a closing quote, sets it exactly for a line-final backslash, and
otherwise leaves the state unchanged at line end. -/
theorem stringBody_spec (str : List Nat) (colstate : Nat) :
    ∀ i, i ≤ str.length →
    stringBody str colstate i =
      match specStringRun (str.drop i) with
      | .closed k => (clearBits colstate IN_ALGOL68_STRING, i + k)
      | .escaped => (colstate ||| IN_ALGOL68_STRING, str.length)
      | .ended => (colstate, str.length) := by
  intro i
  induction i using stringBody.induct str colstate with
  | case1 x hx c h =>
    intro hi
    rw [stringBody, if_pos hx, if_pos h]
    rw [List.drop_eq_getElem_cons hx, specStringRun]
    have h2 := h
    simp only [Bool.and_eq_true, beq_iff_eq] at h2
    have hcond : str[x] = 92 ∧ List.drop (x + 1) str = [] := by
      constructor
      · rw [← getD_eq_getElem_of_lt hx]
        exact h2.1
      · rw [List.drop_eq_nil_iff]
        omega
    rw [if_pos hcond, Prod.mk.injEq]
    exact ⟨rfl, by omega⟩
  | case2 x hx c h h2 =>
    intro hi
    rw [stringBody, if_pos hx, if_neg h, if_pos h2]
    rw [List.drop_eq_getElem_cons hx, specStringRun]
    have hna : ¬(str[x] = 92 ∧ List.drop (x + 1) str = []) := by
      intro hcond
      apply h
      simp only [Bool.and_eq_true, beq_iff_eq]
      constructor
      · show str.getD x 0 = 92
        rw [getD_eq_getElem_of_lt hx]
        exact hcond.1
      · rw [List.drop_eq_nil_iff] at hcond
        omega
    have hq : str[x] = 34 := by
      rw [← getD_eq_getElem_of_lt hx]
      exact beq_iff_eq.mp h2
    rw [if_neg hna, if_pos hq]
  | case3 x hx c h h2 ih =>
    intro hi
    rw [stringBody, if_pos hx, if_neg h, if_neg h2]
    rw [List.drop_eq_getElem_cons hx, specStringRun]
    have hna : ¬(str[x] = 92 ∧ List.drop (x + 1) str = []) := by
      intro hcond
      apply h
      simp only [Bool.and_eq_true, beq_iff_eq]
      constructor
      · show str.getD x 0 = 92
        rw [getD_eq_getElem_of_lt hx]
        exact hcond.1
      · rw [List.drop_eq_nil_iff] at hcond
        omega
    have hq : ¬str[x] = 34 := by
      rw [← getD_eq_getElem_of_lt hx]
      intro he
      exact h2 (beq_iff_eq.mpr he)
    rw [if_neg hna, if_neg hq, ih (by omega)]
    cases specStringRun (str.drop (x + 1)) with
    | closed k => rw [bumpString, Prod.mk.injEq]; exact ⟨rfl, by omega⟩
    | escaped => rw [bumpString]
    | ended => rw [bumpString]
  | case4 x hx =>
    intro hi
    have hx2 : x = str.length := by omega
    rw [stringBody, if_neg hx, hx2, List.drop_length, specStringRun]

end Algol68

namespace Algol68

/-- The folded word at an alphabetic seed, as the spec describes a tag:
the seed and its following run of word characters, lowercase-folded. -/
def specWord (c : Nat) (cs : List Nat) : List Nat :=
  (c :: cs.takeWhile (fun x => qe_isalnum_ x)).map qe_tolower

/-- Decomposition of a tag extraction at an alphabetic seed `str[i]`:
the skip count and buffer of `algol68_get_tag` line up with the folded
word of the spec, and the line after the word is the drop at the advanced
position. -/
theorem word_decomp (str : List Nat) (i : Nat) (hc : qe_isalpha (str.getD i 0) = true) :
    (algol68_get_tag 16 (str.getD i 0) str (i + 1) str.length).ret + 1 =
      (specWord (str.getD i 0) (str.drop (i + 1))).length
    ∧ (∀ kw : List Nat, kw.length < 15 →
        (((algol68_get_tag 16 (str.getD i 0) str (i + 1) str.length).kbuf = kw) ↔
          specWord (str.getD i 0) (str.drop (i + 1)) = kw))
    ∧ (str.drop (i + 1)).drop
        ((specWord (str.getD i 0) (str.drop (i + 1))).length - 1) =
      str.drop (i + 1 + (algol68_get_tag 16 (str.getD i 0) str (i + 1) str.length).ret) := by
  have hspec := algol68_get_tag_spec 16 (str.getD i 0) str (i + 1)
  have hw : specWord (str.getD i 0) (str.drop (i + 1)) =
      (str.getD i 0 :: wordChars str (i + 1)).map qe_tolower := rfl
  have hlen : (specWord (str.getD i 0) (str.drop (i + 1))).length =
      wordRun str (i + 1) + 1 := by
    rw [hw]
    simp only [List.length_map, List.length_cons]
    rfl
  refine ⟨?_, ?_, ?_⟩
  · rw [hspec, hlen]
  · intro kw hkw
    rw [hspec, hw]
    show (((str.getD i 0 :: wordChars str (i + 1)).map fold8).take (16 - 1) = kw) ↔ _
    rw [map_fold8_word hc]
    exact take_eq_short (by omega)
  · rw [hspec, hlen, Nat.add_sub_cancel, List.drop_drop]
    try congr 1
    try omega

end Algol68

namespace Algol68

/-- Outcome of scanning a line suffix inside a keyword-delimited comment. -/
inductive KwRunOut where
  | closed (j e : Nat)
  | stillOpen
deriving DecidableEq, Repr

/-- Lift a keyword-comment outcome over `k` consumed characters. -/
def bumpKw (k : Nat) : KwRunOut → KwRunOut
  | .closed j e => .closed (j + k) (e + k)
  | .stillOpen => .stillOpen

/-- Modelled from the spec: the non-nesting keyword-comment rule
(`comment`, `co`, `pr`).  Scan whole tags; the body closes at the next tag
whose folding equals the keyword (`closed j e`: the closing word spans
offsets `[j, e)`); otherwise the line ends with the comment open. -/
def specKwRun (kw : List Nat) (cs : List Nat) : KwRunOut :=
  match cs with
  | [] => .stillOpen
  | c :: cs2 =>
    if qe_isalpha c then
      let w := specWord c cs2
      if w = kw then .closed 0 w.length
      else bumpKw w.length (specKwRun kw (cs2.drop (w.length - 1)))
    else bumpKw 1 (specKwRun kw cs2)
termination_by cs.length
decreasing_by
  · simp only [List.length_drop, List.length_cons]
    omega
  · simp only [List.length_cons]
    omega

/-- The `comment` / `co` / `pr` body loop refines the spec rule: it closes
exactly at the next occurrence of the closing keyword, styling the body up
to it and handing back the keyword span, or consumes the whole line. -/
theorem kwBody_spec (str kw : List Nat) (sty colstate : Nat) (hkw : kw.length < 15) :
    ∀ i start, i ≤ str.length →
    kwBody str kw sty colstate i start =
      match specKwRun kw (str.drop i) with
      | .closed j e => (setStyle start (i + j) sty,
                        clearBits colstate IN_ALGOL68_COMMENT,
                        i + e, i + j, ALGOL68_STYLE_KEYWORD)
      | .stillOpen => ([], colstate, str.length, start, sty) := by
  intro i start
  induction i, start using kwBody.induct str kw sty colstate with
  | case1 x start hx c hc t hkb =>
    intro hi
    simp +zetaDelta only [] at hkb
    rw [kwBody, dif_pos hx, if_pos hc, if_pos hkb]
    rw [List.drop_eq_getElem_cons hx, specKwRun]
    have hcg : qe_isalpha str[x] = true := by
      rw [← getD_eq_getElem_of_lt hx]
      exact hc
    rw [if_pos hcg]
    obtain ⟨hlen, hiff, hrest⟩ := word_decomp str x hc
    have hkb3 : specWord str[x] (List.drop (x + 1) str) = kw := by
      rw [← getD_eq_getElem_of_lt hx]
      exact (hiff kw hkw).mp (beq_iff_eq.mp hkb)
    rw [if_pos hkb3]
    have hwlen : (specWord str[x] (List.drop (x + 1) str)).length =
        (algol68_get_tag 16 (str.getD x 0) str (x + 1) str.length).ret + 1 := by
      rw [← getD_eq_getElem_of_lt hx, ← hlen]
    rw [Prod.mk.injEq, Prod.mk.injEq, Prod.mk.injEq, Prod.mk.injEq]
    refine ⟨rfl, rfl, ?_, rfl, rfl⟩
    rw [hwlen]
    omega
  | case2 x start hx c hc t i2 hkb ih =>
    intro hi
    simp +zetaDelta only [] at hkb ih
    rw [kwBody, dif_pos hx, if_pos hc, if_neg hkb]
    rw [List.drop_eq_getElem_cons hx, specKwRun]
    have hcg : qe_isalpha str[x] = true := by
      rw [← getD_eq_getElem_of_lt hx]
      exact hc
    rw [if_pos hcg]
    obtain ⟨hlen, hiff, hrest⟩ := word_decomp str x hc
    have hkb3 : ¬specWord str[x] (List.drop (x + 1) str) = kw := by
      rw [← getD_eq_getElem_of_lt hx]
      intro he
      exact hkb (beq_iff_eq.mpr ((hiff kw hkw).mpr he))
    rw [if_neg hkb3]
    have hret : (algol68_get_tag 16 (str.getD x 0) str (x + 1) str.length).ret ≤
        str.length - (x + 1) := by
      rw [algol68_get_tag_spec]
      exact wordRun_le str (x + 1)
    have hrest2 : (List.drop (x + 1) str).drop
        ((specWord str[x] (List.drop (x + 1) str)).length - 1) =
        List.drop (x + 1 + (algol68_get_tag 16 (str.getD x 0) str (x + 1) str.length).ret)
          str := by
      rw [← getD_eq_getElem_of_lt hx]
      exact hrest
    rw [hrest2, ih (by omega)]
    have hwlen : (specWord str[x] (List.drop (x + 1) str)).length =
        (algol68_get_tag 16 (str.getD x 0) str (x + 1) str.length).ret + 1 := by
      rw [← getD_eq_getElem_of_lt hx, ← hlen]
    cases specKwRun kw
        (List.drop (x + 1 + (algol68_get_tag 16 (str.getD x 0) str (x + 1) str.length).ret)
          str) with
    | closed j e =>
      rw [bumpKw, Prod.mk.injEq, Prod.mk.injEq, Prod.mk.injEq, Prod.mk.injEq]
      refine ⟨?_, rfl, ?_, ?_, rfl⟩
      · congr 1
        rw [hwlen]
        omega
      · rw [hwlen]
        omega
      · rw [hwlen]
        omega
    | stillOpen => rw [bumpKw]
  | case3 x start hx c hc ih =>
    intro hi
    rw [kwBody, dif_pos hx, if_neg hc]
    rw [List.drop_eq_getElem_cons hx, specKwRun]
    have hcg : ¬qe_isalpha str[x] = true := by
      rw [← getD_eq_getElem_of_lt hx]
      exact hc
    rw [if_neg hcg, ih (by omega)]
    cases specKwRun kw (List.drop (x + 1) str) with
    | closed j e =>
      rw [bumpKw, Prod.mk.injEq, Prod.mk.injEq, Prod.mk.injEq, Prod.mk.injEq]
      refine ⟨?_, rfl, by omega, by omega, rfl⟩
      congr 1
      omega
    | stillOpen => rw [bumpKw]
  | case4 x start hx =>
    intro hi
    have hx2 : x = str.length := by omega
    rw [kwBody, dif_neg hx, hx2, List.drop_length, specKwRun]

end Algol68

namespace Algol68

/-- Outcome of scanning a line suffix inside a NOTE comment. -/
inductive NoteRunOut where
  | closed (j e : Nat)
  | openLevel (l : Nat)
deriving DecidableEq, Repr

/-- Lift a NOTE-comment outcome over `k` consumed characters. -/
def bumpNote (k : Nat) : NoteRunOut → NoteRunOut
  | .closed j e => .closed (j + k) (e + k)
  | .openLevel l => .openLevel l

/-- Modelled from the spec: the nesting NOTE-comment rule.  Scan whole
tags; a tag folding to `note` increments the level, one folding to `eton`
decrements it and closes the comment exactly when the level reaches 0
(`closed j e`: the closing `eton` spans offsets `[j, e)`); reaching the end
of the line leaves the comment open at the current level. -/
def specNoteRun (cs : List Nat) (level : Nat) : NoteRunOut :=
  match cs with
  | [] => .openLevel level
  | c :: cs2 =>
    if qe_isalpha c then
      let w := specWord c cs2
      if w = cp ("note") then
        bumpNote w.length (specNoteRun (cs2.drop (w.length - 1)) (level + 1))
      else if w = cp ("eton") then
        if level = 1 then .closed 0 w.length
        else bumpNote w.length (specNoteRun (cs2.drop (w.length - 1)) (level - 1))
      else bumpNote w.length (specNoteRun (cs2.drop (w.length - 1)) level)
    else bumpNote 1 (specNoteRun cs2 level)
termination_by cs.length
decreasing_by
  · simp only [List.length_drop, List.length_cons]
    omega
  · simp only [List.length_drop, List.length_cons]
    omega
  · simp only [List.length_drop, List.length_cons]
    omega
  · simp only [List.length_cons]
    omega

/-- The NOTE body loop refines the spec rule: nested `note` / `eton` tags
move the level, the comment closes exactly when the level reaches zero
(styling the body up to the closing `eton` and handing back its span), and
otherwise the line is consumed and the level carried in the state. -/
theorem noteBody_spec (str : List Nat) (colstate : Nat) :
    ∀ level i start, 1 ≤ level → i ≤ str.length →
    noteBody str colstate level i start =
      match specNoteRun (str.drop i) level with
      | .closed j e => (setStyle start (i + j) ALGOL68_STYLE_COMMENT,
                        clearBits colstate IN_ALGOL68_COMMENT,
                        i + e, i + j, ALGOL68_STYLE_KEYWORD)
      | .openLevel l => ([], colstate ||| l * IN_ALGOL68_COMMENT_LEVEL,
                         str.length, start, ALGOL68_STYLE_COMMENT) := by
  intro level i start
  induction level, i, start using noteBody.induct str colstate with
  | case1 level x start hx c hc t i2 hkb ih =>
    intro hlev hi
    simp +zetaDelta only [] at hkb ih
    rw [noteBody, dif_pos hx, if_pos hc, if_pos hkb]
    rw [List.drop_eq_getElem_cons hx, specNoteRun]
    have hcg : qe_isalpha str[x] = true := by
      rw [← getD_eq_getElem_of_lt hx]
      exact hc
    rw [if_pos hcg]
    obtain ⟨hlen, hiff, hrest⟩ := word_decomp str x hc
    have hkb3 : specWord str[x] (List.drop (x + 1) str) = cp ("note") := by
      rw [← getD_eq_getElem_of_lt hx]
      exact (hiff (cp ("note")) (by decide)).mp (beq_iff_eq.mp hkb)
    rw [if_pos hkb3]
    have hret : (algol68_get_tag 16 (str.getD x 0) str (x + 1) str.length).ret ≤
        str.length - (x + 1) := by
      rw [algol68_get_tag_spec]
      exact wordRun_le str (x + 1)
    have hrest2 : (List.drop (x + 1) str).drop
        ((specWord str[x] (List.drop (x + 1) str)).length - 1) =
        List.drop (x + 1 + (algol68_get_tag 16 (str.getD x 0) str (x + 1) str.length).ret)
          str := by
      rw [← getD_eq_getElem_of_lt hx]
      exact hrest
    rw [hrest2, ih (by omega) (by omega)]
    have hwlen : (specWord str[x] (List.drop (x + 1) str)).length =
        (algol68_get_tag 16 (str.getD x 0) str (x + 1) str.length).ret + 1 := by
      rw [← getD_eq_getElem_of_lt hx, ← hlen]
    cases specNoteRun
        (List.drop (x + 1 + (algol68_get_tag 16 (str.getD x 0) str (x + 1) str.length).ret)
          str) (level + 1) with
    | closed j e =>
      rw [bumpNote, Prod.mk.injEq, Prod.mk.injEq, Prod.mk.injEq, Prod.mk.injEq]
      refine ⟨?_, rfl, ?_, ?_, rfl⟩
      · congr 1
        rw [hwlen]
        omega
      · rw [hwlen]
        omega
      · rw [hwlen]
        omega
    | openLevel l => rw [bumpNote]
  | case2 level x start hx c hc t hkb heton hl =>
    intro hlev hi
    simp +zetaDelta only [] at hkb heton
    rw [noteBody, dif_pos hx, if_pos hc, if_neg hkb, if_pos heton, if_pos hl]
    rw [List.drop_eq_getElem_cons hx, specNoteRun]
    have hcg : qe_isalpha str[x] = true := by
      rw [← getD_eq_getElem_of_lt hx]
      exact hc
    rw [if_pos hcg]
    obtain ⟨hlen, hiff, hrest⟩ := word_decomp str x hc
    have hkb3 : ¬specWord str[x] (List.drop (x + 1) str) = cp ("note") := by
      rw [← getD_eq_getElem_of_lt hx]
      intro he
      exact hkb (beq_iff_eq.mpr ((hiff (cp ("note")) (by decide)).mpr he))
    have het3 : specWord str[x] (List.drop (x + 1) str) = cp ("eton") := by
      rw [← getD_eq_getElem_of_lt hx]
      exact (hiff (cp ("eton")) (by decide)).mp (beq_iff_eq.mp heton)
    have hl1 : level = 1 := by
      have := beq_iff_eq.mp hl
      omega
    rw [if_neg hkb3, if_pos het3, if_pos hl1]
    have hwlen : (specWord str[x] (List.drop (x + 1) str)).length =
        (algol68_get_tag 16 (str.getD x 0) str (x + 1) str.length).ret + 1 := by
      rw [← getD_eq_getElem_of_lt hx, ← hlen]
    rw [Prod.mk.injEq, Prod.mk.injEq, Prod.mk.injEq, Prod.mk.injEq]
    refine ⟨rfl, rfl, ?_, rfl, rfl⟩
    rw [hwlen]
    omega
  | case3 level x start hx c hc t i2 hkb heton hl ih =>
    intro hlev hi
    simp +zetaDelta only [] at hkb heton ih
    rw [noteBody, dif_pos hx, if_pos hc, if_neg hkb, if_pos heton, if_neg hl]
    rw [List.drop_eq_getElem_cons hx, specNoteRun]
    have hcg : qe_isalpha str[x] = true := by
      rw [← getD_eq_getElem_of_lt hx]
      exact hc
    rw [if_pos hcg]
    obtain ⟨hlen, hiff, hrest⟩ := word_decomp str x hc
    have hkb3 : ¬specWord str[x] (List.drop (x + 1) str) = cp ("note") := by
      rw [← getD_eq_getElem_of_lt hx]
      intro he
      exact hkb (beq_iff_eq.mpr ((hiff (cp ("note")) (by decide)).mpr he))
    have het3 : specWord str[x] (List.drop (x + 1) str) = cp ("eton") := by
      rw [← getD_eq_getElem_of_lt hx]
      exact (hiff (cp ("eton")) (by decide)).mp (beq_iff_eq.mp heton)
    have hl1 : ¬level = 1 := by
      intro he
      apply hl
      rw [he]
      rfl
    rw [if_neg hkb3, if_pos het3, if_neg hl1]
    have hlev2 : 1 ≤ level - 1 := by
      have hne : ¬level - 1 = 0 := by
        intro h0
        apply hl
        rw [h0]
        rfl
      omega
    have hret : (algol68_get_tag 16 (str.getD x 0) str (x + 1) str.length).ret ≤
        str.length - (x + 1) := by
      rw [algol68_get_tag_spec]
      exact wordRun_le str (x + 1)
    have hrest2 : (List.drop (x + 1) str).drop
        ((specWord str[x] (List.drop (x + 1) str)).length - 1) =
        List.drop (x + 1 + (algol68_get_tag 16 (str.getD x 0) str (x + 1) str.length).ret)
          str := by
      rw [← getD_eq_getElem_of_lt hx]
      exact hrest
    rw [hrest2, ih hlev2 (by omega)]
    have hwlen : (specWord str[x] (List.drop (x + 1) str)).length =
        (algol68_get_tag 16 (str.getD x 0) str (x + 1) str.length).ret + 1 := by
      rw [← getD_eq_getElem_of_lt hx, ← hlen]
    cases specNoteRun
        (List.drop (x + 1 + (algol68_get_tag 16 (str.getD x 0) str (x + 1) str.length).ret)
          str) (level - 1) with
    | closed j e =>
      rw [bumpNote, Prod.mk.injEq, Prod.mk.injEq, Prod.mk.injEq, Prod.mk.injEq]
      refine ⟨?_, rfl, ?_, ?_, rfl⟩
      · congr 1
        rw [hwlen]
        omega
      · rw [hwlen]
        omega
      · rw [hwlen]
        omega
    | openLevel l => rw [bumpNote]
  | case4 level x start hx c hc t i2 hkb heton ih =>
    intro hlev hi
    simp +zetaDelta only [] at hkb heton ih
    rw [noteBody, dif_pos hx, if_pos hc, if_neg hkb, if_neg heton]
    rw [List.drop_eq_getElem_cons hx, specNoteRun]
    have hcg : qe_isalpha str[x] = true := by
      rw [← getD_eq_getElem_of_lt hx]
      exact hc
    rw [if_pos hcg]
    obtain ⟨hlen, hiff, hrest⟩ := word_decomp str x hc
    have hkb3 : ¬specWord str[x] (List.drop (x + 1) str) = cp ("note") := by
      rw [← getD_eq_getElem_of_lt hx]
      intro he
      exact hkb (beq_iff_eq.mpr ((hiff (cp ("note")) (by decide)).mpr he))
    have het3 : ¬specWord str[x] (List.drop (x + 1) str) = cp ("eton") := by
      rw [← getD_eq_getElem_of_lt hx]
      intro he
      exact heton (beq_iff_eq.mpr ((hiff (cp ("eton")) (by decide)).mpr he))
    rw [if_neg hkb3, if_neg het3]
    have hret : (algol68_get_tag 16 (str.getD x 0) str (x + 1) str.length).ret ≤
        str.length - (x + 1) := by
      rw [algol68_get_tag_spec]
      exact wordRun_le str (x + 1)
    have hrest2 : (List.drop (x + 1) str).drop
        ((specWord str[x] (List.drop (x + 1) str)).length - 1) =
        List.drop (x + 1 + (algol68_get_tag 16 (str.getD x 0) str (x + 1) str.length).ret)
          str := by
      rw [← getD_eq_getElem_of_lt hx]
      exact hrest
    rw [hrest2, ih hlev (by omega)]
    have hwlen : (specWord str[x] (List.drop (x + 1) str)).length =
        (algol68_get_tag 16 (str.getD x 0) str (x + 1) str.length).ret + 1 := by
      rw [← getD_eq_getElem_of_lt hx, ← hlen]
    cases specNoteRun
        (List.drop (x + 1 + (algol68_get_tag 16 (str.getD x 0) str (x + 1) str.length).ret)
          str) level with
    | closed j e =>
      rw [bumpNote, Prod.mk.injEq, Prod.mk.injEq, Prod.mk.injEq, Prod.mk.injEq]
      refine ⟨?_, rfl, ?_, ?_, rfl⟩
      · congr 1
        rw [hwlen]
        omega
      · rw [hwlen]
        omega
      · rw [hwlen]
        omega
    | openLevel l => rw [bumpNote]
  | case5 level x start hx c hc ih =>
    intro hlev hi
    rw [noteBody, dif_pos hx, if_neg hc]
    rw [List.drop_eq_getElem_cons hx, specNoteRun]
    have hcg : ¬qe_isalpha str[x] = true := by
      rw [← getD_eq_getElem_of_lt hx]
      exact hc
    rw [if_neg hcg, ih hlev (by omega)]
    cases specNoteRun (List.drop (x + 1) str) level with
    | closed j e =>
      rw [bumpNote, Prod.mk.injEq, Prod.mk.injEq, Prod.mk.injEq, Prod.mk.injEq]
      refine ⟨?_, rfl, by omega, by omega, rfl⟩
      congr 1
      omega
    | openLevel l => rw [bumpNote]
  | case6 level x start hx =>
    intro hlev hi
    have hx2 : x = str.length := by omega
    rw [noteBody, dif_neg hx, hx2, List.drop_length, specNoteRun]

end Algol68

namespace Algol68

theorem and_low_eq_mod (x : Nat) : x &&& 511 = x % 512 := by
  have h := Nat.and_pow_two_sub_one_eq_mod x 9
  norm_num at h
  exact h

theorem and_of_low {b : Nat} (x : Nat) (hb : b &&& 511 = b) :
    x &&& b = (x % 512) &&& b := by
  conv_lhs => rw [← hb, Nat.and_comm b 511, ← Nat.and_assoc, and_low_eq_mod]

/-- Clearing the level bits (bits 9–16) does not change the low flag bits. -/
theorem clearBits_level_and_low {b : Nat} (s : Nat) (hb : b &&& 511 = b) :
    clearBits s (0xFF * IN_ALGOL68_COMMENT_LEVEL) &&& b = s &&& b := by
  have hmask : (s &&& 0xFF * IN_ALGOL68_COMMENT_LEVEL) % 512 = 0 := by
    have h0 : (s &&& 0xFF * IN_ALGOL68_COMMENT_LEVEL) &&& 511 = 0 := by
      rw [Nat.and_assoc]
      have h511 : (0xFF * IN_ALGOL68_COMMENT_LEVEL) &&& 511 = 0 := by decide
      rw [h511, Nat.and_zero]
    rw [← and_low_eq_mod]
    exact h0
  have hle : s &&& 0xFF * IN_ALGOL68_COMMENT_LEVEL ≤ s := Nat.and_le_left
  unfold clearBits
  rw [and_of_low _ hb, and_of_low s hb]
  have hmod : (s - (s &&& 0xFF * IN_ALGOL68_COMMENT_LEVEL)) % 512 = s % 512 := by
    omega
  rw [hmod]

/-- Testing a sub-mask of the comment bits factors through `&&& 0x7F`. -/
theorem and_sub_mask {s v b : Nat} (h : s &&& IN_ALGOL68_COMMENT = v)
    (hb : b &&& 0x7F = b) : s &&& b = v &&& b := by
  conv_lhs => rw [← hb, Nat.and_comm b 0x7F, ← Nat.and_assoc]
  rw [show s &&& 127 = v from h]

/-- An alphabetic code point matches none of the other dispatch cases of
the scanner switch. -/
theorem alpha_no_clash {c : Nat} (h : qe_isalpha c = true) :
    (c == 35) = false ∧ (c == 162) = false ∧ (c == 163) = false ∧
    (c == 123) = false ∧ (c == 34) = false ∧ (c == 36) = false ∧
    qe_isdigit c = false := by
  unfold qe_isalpha qe_isupper qe_islower at h
  unfold qe_isdigit
  simp only [Bool.or_eq_true, Bool.and_eq_true, decide_eq_true_eq] at h
  simp only [beq_eq_false_iff_ne, ne_eq, Bool.and_eq_false_iff,
    decide_eq_false_iff_not]
  rcases h with h | h <;>
    refine ⟨by omega, by omega, by omega, by omega, by omega, by omega, by omega⟩

end Algol68

namespace Algol68

/-- The main loop does nothing at or past the end of the line. -/
theorem mainLoop_end (str : List Nat) (colstate : Nat) (oob : Bool) {i : Nat}
    (hi : str.length ≤ i) :
    mainLoop str colstate i oob = ⟨[], colstate, oob⟩ := by
  rw [mainLoop, dif_neg (by omega)]

/-- One dispatch step of the main loop at a single-character comment
introducer: `#` carries flag 0x04; the cent and pound signs both carry
flag 0x08.  The comment closes at the next occurrence of the same
character on this line, or the line is consumed with the flag set. -/
theorem mainLoop_char_step (str : List Nat) (colstate i : Nat) (oob : Bool)
    (hi : i < str.length) (d f : Nat)
    (hd : (d = 35 ∧ f = IN_ALGOL68_COMMENT_SHARP)
        ∨ (d = 162 ∧ f = IN_ALGOL68_COMMENT_CENT)
        ∨ (d = 163 ∧ f = IN_ALGOL68_COMMENT_POUND))
    (hc : str.getD i 0 = d) :
    mainLoop str colstate i oob =
      match firstOcc d (str.drop (i + 1)) with
      | some k =>
          let rest := mainLoop str (clearBits (colstate ||| f) IN_ALGOL68_COMMENT)
            (i + 1 + k + 1) oob
          ⟨setStyle i (i + 1 + k + 1) ALGOL68_STYLE_COMMENT ++ rest.spans,
           rest.state, rest.oob⟩
      | none =>
          ⟨setStyle i str.length ALGOL68_STYLE_COMMENT, colstate ||| f, oob⟩ := by
  have hspec := charBody_spec str d (colstate ||| f) (i + 1) (by omega)
  rw [mainLoop, dif_pos hi, hc]
  rcases hd with ⟨hd, hf⟩ | ⟨hd, hf⟩ | ⟨hd, hf⟩ <;> subst hd <;> subst hf
  · rw [if_pos (show ((35 : Nat) == 35) = true from rfl)]
    rw [hspec]
    cases hocc : firstOcc 35 (str.drop (i + 1)) with
    | some k => rfl
    | none =>
      simp only []
      rw [mainLoop_end str _ oob (le_refl _)]
      simp
  · rw [if_neg (show ¬((162 : Nat) == 35) = true by decide),
        if_pos (show ((162 : Nat) == 162) = true from rfl)]
    rw [hspec]
    cases hocc : firstOcc 162 (str.drop (i + 1)) with
    | some k => rfl
    | none =>
      simp only []
      rw [mainLoop_end str _ oob (le_refl _)]
      simp
  · rw [if_neg (show ¬((163 : Nat) == 35) = true by decide),
        if_neg (show ¬((163 : Nat) == 162) = true by decide),
        if_pos (show ((163 : Nat) == 163) = true from rfl)]
    rw [hspec]
    cases hocc : firstOcc 163 (str.drop (i + 1)) with
    | some k => rfl
    | none =>
      simp only []
      rw [mainLoop_end str _ oob (le_refl _)]
      simp

end Algol68

namespace Algol68

/-- One dispatch step of the main loop at `{`: the bracket comment starts
at level 1, closes where the level fold reaches zero, and otherwise leaves
the flag with the pending level in the carried state. -/
theorem mainLoop_brace_step (str : List Nat) (colstate i : Nat) (oob : Bool)
    (hi : i < str.length) (hc : str.getD i 0 = 123) :
    mainLoop str colstate i oob =
      match specBraceRun (str.drop (i + 1)) 1 with
      | Sum.inl k =>
          let rest := mainLoop str
            (clearBits (colstate ||| IN_ALGOL68_COMMENT_BRACES) IN_ALGOL68_COMMENT)
            (i + 1 + k) oob
          ⟨setStyle i (i + 1 + k) ALGOL68_STYLE_COMMENT ++ rest.spans,
           rest.state, rest.oob⟩
      | Sum.inr l =>
          ⟨setStyle i str.length ALGOL68_STYLE_COMMENT,
           (colstate ||| IN_ALGOL68_COMMENT_BRACES) ||| l * IN_ALGOL68_COMMENT_LEVEL,
           oob⟩ := by
  have hspec := braceBody_spec str (colstate ||| IN_ALGOL68_COMMENT_BRACES) 1 (i + 1)
    (by omega) (by omega)
  rw [mainLoop, dif_pos hi, hc]
  rw [if_neg (show ¬((123 : Nat) == 35) = true by decide),
      if_neg (show ¬((123 : Nat) == 162) = true by decide),
      if_neg (show ¬((123 : Nat) == 163) = true by decide),
      if_pos (show ((123 : Nat) == 123) = true from rfl)]
  rw [hspec]
  cases hocc : specBraceRun (str.drop (i + 1)) 1 with
  | inl k => rfl
  | inr l =>
    simp only []
    rw [mainLoop_end str _ oob (le_refl _)]
    simp

/-- One dispatch step of the main loop at `"`: the string closes at the
next quote (styling through it), a line-final backslash carries the string
open, and a plain line end leaves the state as it was. -/
theorem mainLoop_string_step (str : List Nat) (colstate i : Nat) (oob : Bool)
    (hi : i < str.length) (hc : str.getD i 0 = 34) :
    mainLoop str colstate i oob =
      match specStringRun (str.drop (i + 1)) with
      | .closed k =>
          let rest := mainLoop str (clearBits colstate IN_ALGOL68_STRING)
            (i + 1 + k) oob
          ⟨setStyle i (i + 1 + k) ALGOL68_STYLE_STRING ++ rest.spans,
           rest.state, rest.oob⟩
      | .escaped =>
          ⟨setStyle i str.length ALGOL68_STYLE_STRING,
           colstate ||| IN_ALGOL68_STRING, oob⟩
      | .ended =>
          ⟨setStyle i str.length ALGOL68_STYLE_STRING, colstate, oob⟩ := by
  have hspec := stringBody_spec str colstate (i + 1) (by omega)
  rw [mainLoop, dif_pos hi, hc]
  rw [if_neg (show ¬((34 : Nat) == 35) = true by decide),
      if_neg (show ¬((34 : Nat) == 162) = true by decide),
      if_neg (show ¬((34 : Nat) == 163) = true by decide),
      if_neg (show ¬((34 : Nat) == 123) = true by decide),
      if_pos (show ((34 : Nat) == 34) = true from rfl)]
  rw [hspec]
  cases hocc : specStringRun (str.drop (i + 1)) with
  | closed k => rfl
  | escaped =>
    simp only []
    rw [mainLoop_end str _ oob (le_refl _)]
    simp
  | ended =>
    simp only []
    rw [mainLoop_end str _ oob (le_refl _)]
    simp

end Algol68

namespace Algol68

/-- Unfolding of the main loop at an alphabetic code point: the word case
of the scanner switch, with the preceding dispatch cases discharged. -/
theorem mainLoop_alpha (str : List Nat) (colstate i : Nat) (oob : Bool)
    (hi : i < str.length) (hc : qe_isalpha (str.getD i 0) = true) :
    mainLoop str colstate i oob =
      (let c := str.getD i 0
       let t := algol68_get_tag 16 c str (i + 1) str.length
       let i2 := i + 1 + t.ret
       if i2 == str.length - 1 && str.getD i2 0 == 92 then
         let sty := if (t.flags &&& 1) != 0 then ALGOL68_STYLE_TYPE
                    else ALGOL68_STYLE_IDENTIFIER
         let rest := mainLoop str (colstate ||| IN_ALGOL68_CONTINUATION) (i2 + 1) oob
         ⟨setStyle i (i2 + 1) sty ++ rest.spans, rest.state, rest.oob⟩
       else if t.kbuf == cp ("note") then
         let r := noteBody str (colstate ||| IN_ALGOL68_COMMENT_NOTE) 1 i2 i2
         let rest := mainLoop str r.2.1 r.2.2.1 oob
         ⟨setStyle i i2 ALGOL68_STYLE_KEYWORD ++ r.1 ++
            setStyle r.2.2.2.1 r.2.2.1 r.2.2.2.2 ++ rest.spans, rest.state, rest.oob⟩
       else if t.kbuf == cp ("comment") then
         let r := kwBody str (cp ("comment")) ALGOL68_STYLE_COMMENT
                    (colstate ||| IN_ALGOL68_COMMENT_COMMENT) i2 i2
         let rest := mainLoop str r.2.1 r.2.2.1 oob
         ⟨setStyle i i2 ALGOL68_STYLE_KEYWORD ++ r.1 ++
            setStyle r.2.2.2.1 r.2.2.1 r.2.2.2.2 ++ rest.spans, rest.state, rest.oob⟩
       else if t.kbuf == cp ("co") then
         let r := kwBody str (cp ("co")) ALGOL68_STYLE_COMMENT
                    (colstate ||| IN_ALGOL68_COMMENT_CO) i2 i2
         let rest := mainLoop str r.2.1 r.2.2.1 oob
         ⟨setStyle i i2 ALGOL68_STYLE_KEYWORD ++ r.1 ++
            setStyle r.2.2.2.1 r.2.2.1 r.2.2.2.2 ++ rest.spans, rest.state, rest.oob⟩
       else if t.kbuf == cp ("pr") then
         let r := kwBody str (cp ("pr")) ALGOL68_STYLE_PREPROCESS
                    (colstate ||| IN_ALGOL68_COMMENT_PR) i2 i2
         let rest := mainLoop str r.2.1 r.2.2.1 oob
         ⟨setStyle i i2 ALGOL68_STYLE_KEYWORD ++ r.1 ++
            setStyle r.2.2.2.1 r.2.2.1 r.2.2.2.2 ++ rest.spans, rest.state, rest.oob⟩
       else if strfind algol68_keywords t.kbuf then
         let rest := mainLoop str colstate i2 oob
         ⟨setStyle i i2 ALGOL68_STYLE_KEYWORD ++ rest.spans, rest.state, rest.oob⟩
       else if strfind algol68_types t.kbuf || (t.flags &&& 1) != 0 then
         let rest := mainLoop str colstate i2 oob
         ⟨setStyle i i2 ALGOL68_STYLE_TYPE ++ rest.spans, rest.state, rest.oob⟩
       else
         let la := funcLookahead str i2
         let rest := mainLoop str colstate i2 (oob || la.2)
         ⟨setStyle i i2 la.1 ++ rest.spans, rest.state, rest.oob⟩) := by
  obtain ⟨h35, h162, h163, h123, h34, h36, hdig⟩ := alpha_no_clash hc
  rw [mainLoop, dif_pos hi]
  rw [if_neg (show ¬((str.getD i 0 == 35) = true) by rw [h35]; decide),
      if_neg (show ¬((str.getD i 0 == 162) = true) by rw [h162]; decide),
      if_neg (show ¬((str.getD i 0 == 163) = true) by rw [h163]; decide),
      if_neg (show ¬((str.getD i 0 == 123) = true) by rw [h123]; decide),
      if_neg (show ¬((str.getD i 0 == 34) = true) by rw [h34]; decide),
      if_neg (show ¬((str.getD i 0 == 36) = true) by rw [h36]; decide),
      if_neg (show ¬(qe_isdigit (str.getD i 0) = true) by rw [hdig]; decide),
      if_pos hc]

end Algol68

namespace Algol68

/-- C5 counterexample: for the one-character word `a` (seed already
consumed by the caller, offset 1 = length), the tag extractor returns 0,
not a value ≥ 1 as the claim states. -/
theorem algol68_C5_counterexample :
    ¬(1 ≤ (algol68_get_tag 16 97 [97] 1 1).ret) := by
  simp +decide [algol68_colorize_line, mainLoop, algol68_get_tag, algol68_tag_go, charBody, braceBody, stringBody, numBody, kwBody, noteBody, funcLookahead, readAt, setStyle, clearBits, strfind, algol68_keywords, algol68_types, cp, qe_isalpha, qe_isupper, qe_islower, qe_isdigit, qe_isalnum, qe_isalnum_, qe_isblank, qe_tolower, wordRun, wordChars, IN_ALGOL68_COMMENT, IN_ALGOL68_COMMENT_COMMENT, IN_ALGOL68_COMMENT_CO, IN_ALGOL68_COMMENT_SHARP, IN_ALGOL68_COMMENT_CENT, IN_ALGOL68_COMMENT_POUND, IN_ALGOL68_COMMENT_BRACES, IN_ALGOL68_COMMENT_NOTE, IN_ALGOL68_COMMENT_PR, IN_ALGOL68_STRING, IN_ALGOL68_CONTINUATION, IN_ALGOL68_COMMENT_LEVEL, ALGOL68_STYLE_TEXT, ALGOL68_STYLE_KEYWORD, ALGOL68_STYLE_TYPE, ALGOL68_STYLE_PREPROCESS, ALGOL68_STYLE_COMMENT, ALGOL68_STYLE_STRING, ALGOL68_STYLE_IDENTIFIER, ALGOL68_STYLE_NUMBER, ALGOL68_STYLE_FUNCTION, styleAt]

/-- C5 (amended): for every valid input (position ≤ length, seed code
point a word character), the tag extractor returns the number of source
positions spanned by the word *after* the already-consumed seed — the
length of the word-character run at the given offset, a value ≥ 0 (and 0
exactly when the word is the seed alone) — which is how far the caller,
whose cursor is already past the seed, must advance. -/
theorem algol68_C5 (size c : Nat) (str : List Nat) (i : Nat)
    (hpos : i ≤ str.length) (hseed : qe_isalnum_ c = true) :
    (algol68_get_tag size c str i str.length).ret = wordRun str i := by
  rw [algol68_get_tag_spec]

theorem algol68_C5_witness :
    (algol68_get_tag 16 97 (cp ("ab")) 1 (cp ("ab")).length).ret =
      wordRun (cp ("ab")) 1 :=
  algol68_C5 16 97 (cp ("ab")) 1 (by decide) (by decide)

/-- C6 counterexample: for the word `ab` (seed `a` at position 0, offset
argument 1), the returned consumed-length is 1, not the length 2 of the
maximal run of word characters starting at the seed. -/
theorem algol68_C6_counterexample :
    (algol68_get_tag 16 97 [97, 98] 1 2).ret ≠ wordRun [97, 98] 0 := by
  simp +decide [algol68_colorize_line, mainLoop, algol68_get_tag, algol68_tag_go, charBody, braceBody, stringBody, numBody, kwBody, noteBody, funcLookahead, readAt, setStyle, clearBits, strfind, algol68_keywords, algol68_types, cp, qe_isalpha, qe_isupper, qe_islower, qe_isdigit, qe_isalnum, qe_isalnum_, qe_isblank, qe_tolower, wordRun, wordChars, IN_ALGOL68_COMMENT, IN_ALGOL68_COMMENT_COMMENT, IN_ALGOL68_COMMENT_CO, IN_ALGOL68_COMMENT_SHARP, IN_ALGOL68_COMMENT_CENT, IN_ALGOL68_COMMENT_POUND, IN_ALGOL68_COMMENT_BRACES, IN_ALGOL68_COMMENT_NOTE, IN_ALGOL68_COMMENT_PR, IN_ALGOL68_STRING, IN_ALGOL68_CONTINUATION, IN_ALGOL68_COMMENT_LEVEL, ALGOL68_STYLE_TEXT, ALGOL68_STYLE_KEYWORD, ALGOL68_STYLE_TYPE, ALGOL68_STYLE_PREPROCESS, ALGOL68_STYLE_COMMENT, ALGOL68_STYLE_STRING, ALGOL68_STYLE_IDENTIFIER, ALGOL68_STYLE_NUMBER, ALGOL68_STYLE_FUNCTION, styleAt]

/-- C6 (amended): for every input the returned consumed-length equals the
length of the maximal run of word characters starting at the given offset
(one position past the seed, i.e. the true word length minus one),
independent of the destination buffer capacity; and if the capacity is
positive the stored prefix is null-terminated at the number of characters
actually stored, `min (1 + run) (capacity - 1)`. -/
theorem algol68_C6 (size c : Nat) (str : List Nat) (i : Nat) :
    (algol68_get_tag size c str i str.length).ret = wordRun str i
    ∧ (0 < size →
        (algol68_get_tag size c str i str.length).nullTerminated = true
        ∧ (algol68_get_tag size c str i str.length).kbuf.length =
            min (1 + wordRun str i) (size - 1)) := by
  rw [algol68_get_tag_spec]
  refine ⟨rfl, fun h0 => ⟨by simp [h0], ?_⟩⟩
  simp only [List.length_take, List.length_map, List.length_cons]
  unfold wordRun
  omega

theorem algol68_C6_witness :
    (algol68_get_tag 16 97 (cp ("ab")) 1 (cp ("ab")).length).nullTerminated = true
    ∧ (algol68_get_tag 16 97 (cp ("ab")) 1 (cp ("ab")).length).kbuf.length =
        min (1 + wordRun (cp ("ab")) 1) (16 - 1) :=
  (algol68_C6 16 97 (cp ("ab")) 1).2 (by decide)

/-- C10: the function-call lookahead branch that indexes the line past its
stated length is reachable: on the line `foo` (an untabled all-lowercase
word ending at line end), the lookahead reads position 3 = n, which is
`none` in the total embedding, and the scan reports the out-of-bounds
access. -/
theorem algol68_C10 :
    (cp ("foo")).get? 3 = none
    ∧ funcLookahead (cp ("foo")) 3 = (ALGOL68_STYLE_IDENTIFIER, true)
    ∧ algol68_colorize_line (cp ("foo")) 0 =
        ⟨[(0, 3, ALGOL68_STYLE_IDENTIFIER)], 0, true⟩ := by
  refine ⟨by simp [cp], by simp +decide [algol68_colorize_line, mainLoop, algol68_get_tag, algol68_tag_go, charBody, braceBody, stringBody, numBody, kwBody, noteBody, funcLookahead, readAt, setStyle, clearBits, strfind, algol68_keywords, algol68_types, cp, qe_isalpha, qe_isupper, qe_islower, qe_isdigit, qe_isalnum, qe_isalnum_, qe_isblank, qe_tolower, wordRun, wordChars, IN_ALGOL68_COMMENT, IN_ALGOL68_COMMENT_COMMENT, IN_ALGOL68_COMMENT_CO, IN_ALGOL68_COMMENT_SHARP, IN_ALGOL68_COMMENT_CENT, IN_ALGOL68_COMMENT_POUND, IN_ALGOL68_COMMENT_BRACES, IN_ALGOL68_COMMENT_NOTE, IN_ALGOL68_COMMENT_PR, IN_ALGOL68_STRING, IN_ALGOL68_CONTINUATION, IN_ALGOL68_COMMENT_LEVEL, ALGOL68_STYLE_TEXT, ALGOL68_STYLE_KEYWORD, ALGOL68_STYLE_TYPE, ALGOL68_STYLE_PREPROCESS, ALGOL68_STYLE_COMMENT, ALGOL68_STYLE_STRING, ALGOL68_STYLE_IDENTIFIER, ALGOL68_STYLE_NUMBER, ALGOL68_STYLE_FUNCTION, styleAt], ?_⟩
  simp +decide [algol68_colorize_line, mainLoop, algol68_get_tag, algol68_tag_go, charBody, braceBody, stringBody, numBody, kwBody, noteBody, funcLookahead, readAt, setStyle, clearBits, strfind, algol68_keywords, algol68_types, cp, qe_isalpha, qe_isupper, qe_islower, qe_isdigit, qe_isalnum, qe_isalnum_, qe_isblank, qe_tolower, wordRun, wordChars, IN_ALGOL68_COMMENT, IN_ALGOL68_COMMENT_COMMENT, IN_ALGOL68_COMMENT_CO, IN_ALGOL68_COMMENT_SHARP, IN_ALGOL68_COMMENT_CENT, IN_ALGOL68_COMMENT_POUND, IN_ALGOL68_COMMENT_BRACES, IN_ALGOL68_COMMENT_NOTE, IN_ALGOL68_COMMENT_PR, IN_ALGOL68_STRING, IN_ALGOL68_CONTINUATION, IN_ALGOL68_COMMENT_LEVEL, ALGOL68_STYLE_TEXT, ALGOL68_STYLE_KEYWORD, ALGOL68_STYLE_TYPE, ALGOL68_STYLE_PREPROCESS, ALGOL68_STYLE_COMMENT, ALGOL68_STYLE_STRING, ALGOL68_STYLE_IDENTIFIER, ALGOL68_STYLE_NUMBER, ALGOL68_STYLE_FUNCTION, styleAt]

/-- C4 (code bug): resuming a broken-tag continuation re-sets the
continuation flag unconditionally (the `goto in_broken_tag` lands after
the flag has been re-ORed), so the flag is not cleared on the call where
the construct closes: after `foo\` then `bar` the state is still 0x100,
and after `foo\` then `bar "\` the returned state 0x180 carries the
string-continuation and tag-continuation flags simultaneously. -/
theorem algol68_C4 :
    (algol68_colorize_line (cp ("foo\\")) 0).state = 0x100
    ∧ (algol68_colorize_line (cp ("bar")) 0x100).state = 0x100
    ∧ (algol68_colorize_line [98, 97, 114, 32, 34, 92] 0x100).state =
        0x100 ||| 0x80 := by
  refine ⟨by simp +decide [algol68_colorize_line, mainLoop, algol68_get_tag, algol68_tag_go, charBody, braceBody, stringBody, numBody, kwBody, noteBody, funcLookahead, readAt, setStyle, clearBits, strfind, algol68_keywords, algol68_types, cp, qe_isalpha, qe_isupper, qe_islower, qe_isdigit, qe_isalnum, qe_isalnum_, qe_isblank, qe_tolower, wordRun, wordChars, IN_ALGOL68_COMMENT, IN_ALGOL68_COMMENT_COMMENT, IN_ALGOL68_COMMENT_CO, IN_ALGOL68_COMMENT_SHARP, IN_ALGOL68_COMMENT_CENT, IN_ALGOL68_COMMENT_POUND, IN_ALGOL68_COMMENT_BRACES, IN_ALGOL68_COMMENT_NOTE, IN_ALGOL68_COMMENT_PR, IN_ALGOL68_STRING, IN_ALGOL68_CONTINUATION, IN_ALGOL68_COMMENT_LEVEL, ALGOL68_STYLE_TEXT, ALGOL68_STYLE_KEYWORD, ALGOL68_STYLE_TYPE, ALGOL68_STYLE_PREPROCESS, ALGOL68_STYLE_COMMENT, ALGOL68_STYLE_STRING, ALGOL68_STYLE_IDENTIFIER, ALGOL68_STYLE_NUMBER, ALGOL68_STYLE_FUNCTION, styleAt], by simp +decide [algol68_colorize_line, mainLoop, algol68_get_tag, algol68_tag_go, charBody, braceBody, stringBody, numBody, kwBody, noteBody, funcLookahead, readAt, setStyle, clearBits, strfind, algol68_keywords, algol68_types, cp, qe_isalpha, qe_isupper, qe_islower, qe_isdigit, qe_isalnum, qe_isalnum_, qe_isblank, qe_tolower, wordRun, wordChars, IN_ALGOL68_COMMENT, IN_ALGOL68_COMMENT_COMMENT, IN_ALGOL68_COMMENT_CO, IN_ALGOL68_COMMENT_SHARP, IN_ALGOL68_COMMENT_CENT, IN_ALGOL68_COMMENT_POUND, IN_ALGOL68_COMMENT_BRACES, IN_ALGOL68_COMMENT_NOTE, IN_ALGOL68_COMMENT_PR, IN_ALGOL68_STRING, IN_ALGOL68_CONTINUATION, IN_ALGOL68_COMMENT_LEVEL, ALGOL68_STYLE_TEXT, ALGOL68_STYLE_KEYWORD, ALGOL68_STYLE_TYPE, ALGOL68_STYLE_PREPROCESS, ALGOL68_STYLE_COMMENT, ALGOL68_STYLE_STRING, ALGOL68_STYLE_IDENTIFIER, ALGOL68_STYLE_NUMBER, ALGOL68_STYLE_FUNCTION, styleAt], by simp +decide [algol68_colorize_line, mainLoop, algol68_get_tag, algol68_tag_go, charBody, braceBody, stringBody, numBody, kwBody, noteBody, funcLookahead, readAt, setStyle, clearBits, strfind, algol68_keywords, algol68_types, cp, qe_isalpha, qe_isupper, qe_islower, qe_isdigit, qe_isalnum, qe_isalnum_, qe_isblank, qe_tolower, wordRun, wordChars, IN_ALGOL68_COMMENT, IN_ALGOL68_COMMENT_COMMENT, IN_ALGOL68_COMMENT_CO, IN_ALGOL68_COMMENT_SHARP, IN_ALGOL68_COMMENT_CENT, IN_ALGOL68_COMMENT_POUND, IN_ALGOL68_COMMENT_BRACES, IN_ALGOL68_COMMENT_NOTE, IN_ALGOL68_COMMENT_PR, IN_ALGOL68_STRING, IN_ALGOL68_CONTINUATION, IN_ALGOL68_COMMENT_LEVEL, ALGOL68_STYLE_TEXT, ALGOL68_STYLE_KEYWORD, ALGOL68_STYLE_TYPE, ALGOL68_STYLE_PREPROCESS, ALGOL68_STYLE_COMMENT, ALGOL68_STYLE_STRING, ALGOL68_STYLE_IDENTIFIER, ALGOL68_STYLE_NUMBER, ALGOL68_STYLE_FUNCTION, styleAt]⟩

end Algol68

namespace Algol68

theorem or_mul512 (b l : Nat) (hb : b < 512) : b ||| l * 512 = b + l * 512 := by
  have h := Nat.mul_add_lt_is_or (i := 9) (b := b) (by norm_num; omega) l
  rw [Nat.lor_comm]
  have h29 : (2 : Nat) ^ 9 = 512 := by norm_num
  rw [h29, Nat.mul_comm 512 l] at h
  rw [← h]
  omega

/-- A multiple of 512 below 2^17 sits entirely inside the level mask. -/
theorem and_level_mask {x : Nat} (hx : x < 131072) (hm : x % 512 = 0) :
    x &&& 0xFF * IN_ALGOL68_COMMENT_LEVEL = x := by
  show x &&& 0xFF * 0x200 = x
  have h1 : x &&& 131071 = x := by
    have h := Nat.and_pow_two_sub_one_of_lt_two_pow (n := 17) (x := x) (by norm_num; omega)
    norm_num at h
    exact h
  have h2 : x &&& 511 = 0 := by
    rw [and_low_eq_mod]
    exact hm
  have hsplit : (131071 : Nat) = 0xFF * 0x200 ||| 511 := by decide
  conv_rhs => rw [← h1, hsplit]
  rw [Nat.and_comm x (0xFF * 0x200 ||| 511), Nat.and_distrib_right,
    Nat.and_comm 511 x, h2, Nat.or_zero]
  exact Nat.and_comm x (0xFF * 0x200)

end Algol68

namespace Algol68

/-- Flag tests on the level-stripped resume state factor through the raw
state's comment bits. -/
theorem resume_flag_eq (st : Nat) {v b : Nat}
    (h : st &&& IN_ALGOL68_COMMENT = v)
    (hb1 : b &&& 511 = b) (hb2 : b &&& 0x7F = b) :
    clearBits st (0xFF * IN_ALGOL68_COMMENT_LEVEL) &&& b = v &&& b := by
  rw [clearBits_level_and_low st hb1, and_sub_mask h hb2]

/-- Entry dispatch for a carried `#`-comment (flag 0x04): the line resumes
in the single-character comment body with delimiter `#`. -/
theorem colorize_resume_sharp (str : List Nat) (st : Nat)
    (h : st &&& IN_ALGOL68_COMMENT = IN_ALGOL68_COMMENT_SHARP) :
    algol68_colorize_line str st =
      (let r := charBody str 35 (clearBits st (0xFF * IN_ALGOL68_COMMENT_LEVEL)) 0
       let rest := mainLoop str r.1 r.2 false
       ⟨setStyle 0 r.2 ALGOL68_STYLE_COMMENT ++ rest.spans, rest.state, rest.oob⟩) := by
  rw [algol68_colorize_line]
  rw [if_pos (show ((st &&& IN_ALGOL68_COMMENT != 0) = true) by rw [h]; decide)]
  simp only []
  rw [if_neg (show ¬((clearBits st (0xFF * IN_ALGOL68_COMMENT_LEVEL) &&&
        IN_ALGOL68_COMMENT_COMMENT != 0) = true) by
      rw [resume_flag_eq st h (by decide) (by decide)]; decide),
    if_neg (show ¬((clearBits st (0xFF * IN_ALGOL68_COMMENT_LEVEL) &&&
        IN_ALGOL68_COMMENT_CO != 0) = true) by
      rw [resume_flag_eq st h (by decide) (by decide)]; decide),
    if_neg (show ¬((clearBits st (0xFF * IN_ALGOL68_COMMENT_LEVEL) &&&
        IN_ALGOL68_COMMENT_NOTE != 0) = true) by
      rw [resume_flag_eq st h (by decide) (by decide)]; decide),
    if_neg (show ¬((clearBits st (0xFF * IN_ALGOL68_COMMENT_LEVEL) &&&
        IN_ALGOL68_COMMENT_PR != 0) = true) by
      rw [resume_flag_eq st h (by decide) (by decide)]; decide),
    if_neg (show ¬((clearBits st (0xFF * IN_ALGOL68_COMMENT_LEVEL) &&&
        IN_ALGOL68_COMMENT_BRACES != 0) = true) by
      rw [resume_flag_eq st h (by decide) (by decide)]; decide),
    if_pos (show ((clearBits st (0xFF * IN_ALGOL68_COMMENT_LEVEL) &&&
        IN_ALGOL68_COMMENT_SHARP != 0) = true) by
      rw [resume_flag_eq st h (by decide) (by decide)]; decide)]

/-- Entry dispatch for a carried cent/pound comment (shared flag 0x08):
the line resumes in the single-character comment body with delimiter the
cent sign (162) — also when the comment was opened by a pound sign. -/
theorem colorize_resume_cent (str : List Nat) (st : Nat)
    (h : st &&& IN_ALGOL68_COMMENT = IN_ALGOL68_COMMENT_CENT) :
    algol68_colorize_line str st =
      (let r := charBody str 162 (clearBits st (0xFF * IN_ALGOL68_COMMENT_LEVEL)) 0
       let rest := mainLoop str r.1 r.2 false
       ⟨setStyle 0 r.2 ALGOL68_STYLE_COMMENT ++ rest.spans, rest.state, rest.oob⟩) := by
  rw [algol68_colorize_line]
  rw [if_pos (show ((st &&& IN_ALGOL68_COMMENT != 0) = true) by rw [h]; decide)]
  simp only []
  rw [if_neg (show ¬((clearBits st (0xFF * IN_ALGOL68_COMMENT_LEVEL) &&&
        IN_ALGOL68_COMMENT_COMMENT != 0) = true) by
      rw [resume_flag_eq st h (by decide) (by decide)]; decide),
    if_neg (show ¬((clearBits st (0xFF * IN_ALGOL68_COMMENT_LEVEL) &&&
        IN_ALGOL68_COMMENT_CO != 0) = true) by
      rw [resume_flag_eq st h (by decide) (by decide)]; decide),
    if_neg (show ¬((clearBits st (0xFF * IN_ALGOL68_COMMENT_LEVEL) &&&
        IN_ALGOL68_COMMENT_NOTE != 0) = true) by
      rw [resume_flag_eq st h (by decide) (by decide)]; decide),
    if_neg (show ¬((clearBits st (0xFF * IN_ALGOL68_COMMENT_LEVEL) &&&
        IN_ALGOL68_COMMENT_PR != 0) = true) by
      rw [resume_flag_eq st h (by decide) (by decide)]; decide),
    if_neg (show ¬((clearBits st (0xFF * IN_ALGOL68_COMMENT_LEVEL) &&&
        IN_ALGOL68_COMMENT_BRACES != 0) = true) by
      rw [resume_flag_eq st h (by decide) (by decide)]; decide),
    if_neg (show ¬((clearBits st (0xFF * IN_ALGOL68_COMMENT_LEVEL) &&&
        IN_ALGOL68_COMMENT_SHARP != 0) = true) by
      rw [resume_flag_eq st h (by decide) (by decide)]; decide),
    if_pos (show ((clearBits st (0xFF * IN_ALGOL68_COMMENT_LEVEL) &&&
        IN_ALGOL68_COMMENT_CENT != 0) = true) by
      rw [resume_flag_eq st h (by decide) (by decide)]; decide)]

/-- Entry dispatch for a carried brace comment (flag 0x10): the line
resumes in the brace body at the unpacked nesting level. -/
theorem colorize_resume_brace (str : List Nat) (st : Nat)
    (h : st &&& IN_ALGOL68_COMMENT = IN_ALGOL68_COMMENT_BRACES) :
    algol68_colorize_line str st =
      (let r := braceBody str (clearBits st (0xFF * IN_ALGOL68_COMMENT_LEVEL))
                  (st / IN_ALGOL68_COMMENT_LEVEL) 0
       let rest := mainLoop str r.1 r.2 false
       ⟨setStyle 0 r.2 ALGOL68_STYLE_COMMENT ++ rest.spans, rest.state, rest.oob⟩) := by
  rw [algol68_colorize_line]
  rw [if_pos (show ((st &&& IN_ALGOL68_COMMENT != 0) = true) by rw [h]; decide)]
  simp only []
  rw [if_neg (show ¬((clearBits st (0xFF * IN_ALGOL68_COMMENT_LEVEL) &&&
        IN_ALGOL68_COMMENT_COMMENT != 0) = true) by
      rw [resume_flag_eq st h (by decide) (by decide)]; decide),
    if_neg (show ¬((clearBits st (0xFF * IN_ALGOL68_COMMENT_LEVEL) &&&
        IN_ALGOL68_COMMENT_CO != 0) = true) by
      rw [resume_flag_eq st h (by decide) (by decide)]; decide),
    if_neg (show ¬((clearBits st (0xFF * IN_ALGOL68_COMMENT_LEVEL) &&&
        IN_ALGOL68_COMMENT_NOTE != 0) = true) by
      rw [resume_flag_eq st h (by decide) (by decide)]; decide),
    if_neg (show ¬((clearBits st (0xFF * IN_ALGOL68_COMMENT_LEVEL) &&&
        IN_ALGOL68_COMMENT_PR != 0) = true) by
      rw [resume_flag_eq st h (by decide) (by decide)]; decide),
    if_pos (show ((clearBits st (0xFF * IN_ALGOL68_COMMENT_LEVEL) &&&
        IN_ALGOL68_COMMENT_BRACES != 0) = true) by
      rw [resume_flag_eq st h (by decide) (by decide)]; decide)]

/-- Entry dispatch for a carried open string (no comment flags): the line
resumes in the string body at column 0. -/
theorem colorize_resume_string (str : List Nat) (st : Nat)
    (h7 : st &&& IN_ALGOL68_COMMENT = 0)
    (h8 : (st &&& IN_ALGOL68_STRING) ≠ 0) :
    algol68_colorize_line str st =
      (let r := stringBody str st 0
       let rest := mainLoop str r.1 r.2 false
       ⟨setStyle 0 r.2 ALGOL68_STYLE_STRING ++ rest.spans, rest.state, rest.oob⟩) := by
  rw [algol68_colorize_line]
  rw [if_neg (show ¬((st &&& IN_ALGOL68_COMMENT != 0) = true) by rw [h7]; decide)]
  rw [if_pos (show ((st &&& IN_ALGOL68_STRING != 0) = true) from bne_iff_ne.mpr h8)]

/-- Entry dispatch for a carried broken-tag continuation (no comment or
string flags): the continuation flag is stripped and, when the line starts
with a word character, the leading run is consumed as its own tag and
styled by its own case flag — then the flag is re-set (the code bug noted
for C4), before normal scanning continues after the word. -/
theorem colorize_resume_cont (str : List Nat) (st : Nat)
    (h7 : st &&& IN_ALGOL68_COMMENT = 0)
    (h8 : st &&& IN_ALGOL68_STRING = 0)
    (h10 : (st &&& IN_ALGOL68_CONTINUATION) ≠ 0) :
    algol68_colorize_line str st =
      (let colstate := clearBits st IN_ALGOL68_CONTINUATION
       if 0 < str.length && qe_isalnum_ (str.getD 0 0) then
         let t := algol68_get_tag 16 (str.getD 0 0) str 1 str.length
         let i2 := 1 + t.ret
         let sty := if (t.flags &&& 1) != 0 then ALGOL68_STYLE_TYPE
                    else ALGOL68_STYLE_IDENTIFIER
         let rest := mainLoop str (colstate ||| IN_ALGOL68_CONTINUATION) i2 false
         ⟨setStyle 0 i2 sty ++ rest.spans, rest.state, rest.oob⟩
       else mainLoop str colstate 0 false) := by
  rw [algol68_colorize_line]
  rw [if_neg (show ¬((st &&& IN_ALGOL68_COMMENT != 0) = true) by rw [h7]; decide)]
  rw [if_neg (show ¬((st &&& IN_ALGOL68_STRING != 0) = true) by rw [h8]; decide)]
  rw [if_pos (show ((st &&& IN_ALGOL68_CONTINUATION != 0) = true) from
    bne_iff_ne.mpr h10)]

end Algol68

namespace Algol68

/-- C1: a `{` scanned from the idle state enters a bracket comment at
level 1 whose further `{` / `}` characters move the level as the spec rule
`specBraceRun` describes; the comment closes (comment bits cleared,
comment styling ending) exactly where the level reaches 0, and if the line
ends first the returned state carries the brace flag together with the
current level (`0x10 + level·0x200`); scanning a following empty line
returns that state unchanged. -/
theorem algol68_C1 :
    (∀ (str : List Nat) (colstate i : Nat) (oob : Bool),
      i < str.length → str.getD i 0 = 123 →
      mainLoop str colstate i oob =
        match specBraceRun (str.drop (i + 1)) 1 with
        | Sum.inl k =>
            let rest := mainLoop str
              (clearBits (colstate ||| IN_ALGOL68_COMMENT_BRACES) IN_ALGOL68_COMMENT)
              (i + 1 + k) oob
            ⟨setStyle i (i + 1 + k) ALGOL68_STYLE_COMMENT ++ rest.spans,
             rest.state, rest.oob⟩
        | Sum.inr l =>
            ⟨setStyle i str.length ALGOL68_STYLE_COMMENT,
             (colstate ||| IN_ALGOL68_COMMENT_BRACES) ||| l * IN_ALGOL68_COMMENT_LEVEL,
             oob⟩)
    ∧ (∀ l : Nat, 1 ≤ l → l < 256 →
        (algol68_colorize_line [] (0x10 + l * 0x200)).state = 0x10 + l * 0x200) := by
  constructor
  · exact fun str colstate i oob hi hc => mainLoop_brace_step str colstate i oob hi hc
  · intro l h1 h2
    have e3 : (0x10 + l * 0x200) &&& 0xFF * IN_ALGOL68_COMMENT_LEVEL = l * 0x200 := by
      have hor : (16 : Nat) ||| l * 512 = 16 + l * 512 := or_mul512 16 l (by omega)
      show (16 + l * 512) &&& 0xFF * IN_ALGOL68_COMMENT_LEVEL = l * 512
      rw [← hor, Nat.and_distrib_right]
      rw [and_level_mask (x := l * 512) (by omega) (by omega)]
      rw [show (16 : Nat) &&& 0xFF * IN_ALGOL68_COMMENT_LEVEL = 0 by decide, Nat.zero_or]
    have h7 : (0x10 + l * 0x200) &&& IN_ALGOL68_COMMENT = IN_ALGOL68_COMMENT_BRACES := by
      rw [and_of_low _ (by decide)]
      rw [show (0x10 + l * 0x200) % 512 = 0x10 by omega]
      decide
    rw [colorize_resume_brace [] _ h7]
    simp only []
    have hb : braceBody [] (clearBits (0x10 + l * 0x200) (0xFF * IN_ALGOL68_COMMENT_LEVEL))
        ((0x10 + l * 0x200) / IN_ALGOL68_COMMENT_LEVEL) 0 =
        (clearBits (0x10 + l * 0x200) (0xFF * IN_ALGOL68_COMMENT_LEVEL) |||
          ((0x10 + l * 0x200) / IN_ALGOL68_COMMENT_LEVEL) * IN_ALGOL68_COMMENT_LEVEL,
         0) := by
      rw [braceBody]
      rw [if_neg (by simp)]
    rw [hb]
    rw [mainLoop_end _ _ _ (by simp)]
    show clearBits (0x10 + l * 0x200) (0xFF * IN_ALGOL68_COMMENT_LEVEL) |||
        ((0x10 + l * 0x200) / IN_ALGOL68_COMMENT_LEVEL) * IN_ALGOL68_COMMENT_LEVEL =
      0x10 + l * 0x200
    have hC : clearBits (0x10 + l * 0x200) (0xFF * IN_ALGOL68_COMMENT_LEVEL) = 0x10 := by
      unfold clearBits
      rw [e3]
      omega
    have hlvl : (0x10 + l * 0x200) / IN_ALGOL68_COMMENT_LEVEL = l := by
      show (0x10 + l * 0x200) / 0x200 = l
      omega
    rw [hC, hlvl]
    exact or_mul512 16 l (by omega)

theorem algol68_C1_witness :
    mainLoop [123, 125, 97] 0 0 false =
      match specBraceRun ([123, 125, 97].drop 1) 1 with
      | Sum.inl k =>
          let rest := mainLoop [123, 125, 97]
            (clearBits (0 ||| IN_ALGOL68_COMMENT_BRACES) IN_ALGOL68_COMMENT)
            (0 + 1 + k) false
          ⟨setStyle 0 (0 + 1 + k) ALGOL68_STYLE_COMMENT ++ rest.spans,
           rest.state, rest.oob⟩
      | Sum.inr l =>
          ⟨setStyle 0 [123, 125, 97].length ALGOL68_STYLE_COMMENT,
           (0 ||| IN_ALGOL68_COMMENT_BRACES) ||| l * IN_ALGOL68_COMMENT_LEVEL,
           false⟩ :=
  algol68_C1.1 [123, 125, 97] 0 0 false (by decide) (by decide)

end Algol68

namespace Algol68

/-- C3 counterexample: a pound-sign comment left open on one line does
*not* close at the next pound sign: line `£x` leaves state 8, and
resuming line `y£` (which contains a pound sign) still returns state 8
with the comment flag (bit 0x08) still set — the resume scans for the
cent sign instead. -/
theorem algol68_C3_counterexample :
    (algol68_colorize_line [163, 120] 0).state = 8
    ∧ (algol68_colorize_line [121, 163] 8).state = 8
    ∧ ¬((8 : Nat) &&& IN_ALGOL68_COMMENT = 0) := by
  refine ⟨?_, ?_, by decide⟩
  · simp +decide [algol68_colorize_line, mainLoop, algol68_get_tag, algol68_tag_go,
      charBody, braceBody, stringBody, numBody, kwBody, noteBody, funcLookahead,
      readAt, setStyle, clearBits, strfind, algol68_keywords, algol68_types, cp,
      qe_isalpha, qe_isupper, qe_islower, qe_isdigit, qe_isalnum, qe_isalnum_,
      qe_isblank, qe_tolower, IN_ALGOL68_COMMENT, IN_ALGOL68_COMMENT_COMMENT,
      IN_ALGOL68_COMMENT_CO, IN_ALGOL68_COMMENT_SHARP, IN_ALGOL68_COMMENT_CENT,
      IN_ALGOL68_COMMENT_POUND, IN_ALGOL68_COMMENT_BRACES, IN_ALGOL68_COMMENT_NOTE,
      IN_ALGOL68_COMMENT_PR, IN_ALGOL68_STRING, IN_ALGOL68_CONTINUATION,
      IN_ALGOL68_COMMENT_LEVEL, ALGOL68_STYLE_COMMENT]
  · simp +decide [algol68_colorize_line, mainLoop, algol68_get_tag, algol68_tag_go,
      charBody, braceBody, stringBody, numBody, kwBody, noteBody, funcLookahead,
      readAt, setStyle, clearBits, strfind, algol68_keywords, algol68_types, cp,
      qe_isalpha, qe_isupper, qe_islower, qe_isdigit, qe_isalnum, qe_isalnum_,
      qe_isblank, qe_tolower, IN_ALGOL68_COMMENT, IN_ALGOL68_COMMENT_COMMENT,
      IN_ALGOL68_COMMENT_CO, IN_ALGOL68_COMMENT_SHARP, IN_ALGOL68_COMMENT_CENT,
      IN_ALGOL68_COMMENT_POUND, IN_ALGOL68_COMMENT_BRACES, IN_ALGOL68_COMMENT_NOTE,
      IN_ALGOL68_COMMENT_PR, IN_ALGOL68_STRING, IN_ALGOL68_CONTINUATION,
      IN_ALGOL68_COMMENT_LEVEL, ALGOL68_STYLE_COMMENT]

/-- C3 (amended): a line opening a single-character comment with `#`
carries state flag 0x04 and resumes closing exactly at the next `#`; the
cent sign and the pound sign share flag slot 0x08, so an open pound-sign
comment and an open cent-sign comment produce the same carried state and
resume identically — namely as a *cent* comment, closing exactly at the
next cent sign (not at a pound sign).  The loop itself closes exactly at
the first later occurrence of its delimiter. -/
theorem algol68_C3 :
    (∀ (str : List Nat) (c colstate i : Nat), i ≤ str.length →
      charBody str c colstate i =
        match firstOcc c (str.drop i) with
        | some k => (clearBits colstate IN_ALGOL68_COMMENT, i + k + 1)
        | none => (colstate, str.length))
    ∧ (∀ (str : List Nat) (colstate i : Nat) (oob : Bool), i < str.length →
      ∀ d f, ((d = 35 ∧ f = IN_ALGOL68_COMMENT_SHARP)
          ∨ (d = 162 ∧ f = IN_ALGOL68_COMMENT_CENT)
          ∨ (d = 163 ∧ f = IN_ALGOL68_COMMENT_POUND)) →
        str.getD i 0 = d →
        mainLoop str colstate i oob =
          match firstOcc d (str.drop (i + 1)) with
          | some k =>
              let rest := mainLoop str
                (clearBits (colstate ||| f) IN_ALGOL68_COMMENT) (i + 1 + k + 1) oob
              ⟨setStyle i (i + 1 + k + 1) ALGOL68_STYLE_COMMENT ++ rest.spans,
               rest.state, rest.oob⟩
          | none =>
              ⟨setStyle i str.length ALGOL68_STYLE_COMMENT, colstate ||| f, oob⟩)
    ∧ (∀ (str : List Nat) (st : Nat),
        st &&& IN_ALGOL68_COMMENT = IN_ALGOL68_COMMENT_SHARP →
        algol68_colorize_line str st =
          (let r := charBody str 35
             (clearBits st (0xFF * IN_ALGOL68_COMMENT_LEVEL)) 0
           let rest := mainLoop str r.1 r.2 false
           ⟨setStyle 0 r.2 ALGOL68_STYLE_COMMENT ++ rest.spans,
            rest.state, rest.oob⟩))
    ∧ (∀ (str : List Nat) (st : Nat),
        st &&& IN_ALGOL68_COMMENT = IN_ALGOL68_COMMENT_POUND →
        algol68_colorize_line str st =
          (let r := charBody str 162
             (clearBits st (0xFF * IN_ALGOL68_COMMENT_LEVEL)) 0
           let rest := mainLoop str r.1 r.2 false
           ⟨setStyle 0 r.2 ALGOL68_STYLE_COMMENT ++ rest.spans,
            rest.state, rest.oob⟩)) := by
  refine ⟨?_, ?_, ?_, ?_⟩
  · exact fun str c colstate i hi => charBody_spec str c colstate i hi
  · exact fun str colstate i oob hi d f hd hc =>
      mainLoop_char_step str colstate i oob hi d f hd hc
  · exact fun str st h => colorize_resume_sharp str st h
  · exact fun str st h => colorize_resume_cent str st h

theorem algol68_C3_witness :
    algol68_colorize_line [121, 162] 8 =
      (let r := charBody [121, 162] 162
         (clearBits 8 (0xFF * IN_ALGOL68_COMMENT_LEVEL)) 0
       let rest := mainLoop [121, 162] r.1 r.2 false
       ⟨setStyle 0 r.2 ALGOL68_STYLE_COMMENT ++ rest.spans,
        rest.state, rest.oob⟩) :=
  algol68_C3.2.2.2 [121, 162] 8 (by decide)

end Algol68

namespace Algol68

/-- C9: a `"` enters a string whose body consumes code points until a
quote, which closes it and clears the continuation flag; a backslash as
the very last code point of the line leaves the string open with the flag
set; a plain line end changes nothing; no other escape handling exists
(the spec-side rule `specStringRun` closes at *every* quote and treats a
backslash specially only at line end); a carried open string resumes the
same body at column 0. -/
theorem algol68_C9 :
    (∀ (str : List Nat) (colstate i : Nat), i ≤ str.length →
      stringBody str colstate i =
        match specStringRun (str.drop i) with
        | .closed k => (clearBits colstate IN_ALGOL68_STRING, i + k)
        | .escaped => (colstate ||| IN_ALGOL68_STRING, str.length)
        | .ended => (colstate, str.length))
    ∧ (∀ (str : List Nat) (colstate i : Nat) (oob : Bool), i < str.length →
        str.getD i 0 = 34 →
        mainLoop str colstate i oob =
          match specStringRun (str.drop (i + 1)) with
          | .closed k =>
              let rest := mainLoop str (clearBits colstate IN_ALGOL68_STRING)
                (i + 1 + k) oob
              ⟨setStyle i (i + 1 + k) ALGOL68_STYLE_STRING ++ rest.spans,
               rest.state, rest.oob⟩
          | .escaped =>
              ⟨setStyle i str.length ALGOL68_STYLE_STRING,
               colstate ||| IN_ALGOL68_STRING, oob⟩
          | .ended =>
              ⟨setStyle i str.length ALGOL68_STYLE_STRING, colstate, oob⟩)
    ∧ (∀ (str : List Nat) (st : Nat),
        st &&& IN_ALGOL68_COMMENT = 0 → (st &&& IN_ALGOL68_STRING) ≠ 0 →
        algol68_colorize_line str st =
          (let r := stringBody str st 0
           let rest := mainLoop str r.1 r.2 false
           ⟨setStyle 0 r.2 ALGOL68_STYLE_STRING ++ rest.spans,
            rest.state, rest.oob⟩)) := by
  refine ⟨?_, ?_, ?_⟩
  · exact fun str colstate i hi => stringBody_spec str colstate i hi
  · exact fun str colstate i oob hi hc => mainLoop_string_step str colstate i oob hi hc
  · exact fun str st h7 h8 => colorize_resume_string str st h7 h8

theorem algol68_C9_witness :
    stringBody [34, 97, 98, 92] 0 1 =
      match specStringRun ([34, 97, 98, 92].drop 1) with
      | .closed k => (clearBits 0 IN_ALGOL68_STRING, 1 + k)
      | .escaped => (0 ||| IN_ALGOL68_STRING, [34, 97, 98, 92].length)
      | .ended => (0, [34, 97, 98, 92].length) :=
  algol68_C9.1 [34, 97, 98, 92] 0 1 (by decide)

/-- C2: inside a NOTE body each whole tag folding to `note` increments the
level and each tag folding to `eton` decrements it; the comment closes
exactly when the level reaches 0, the closing `eton` being handed back as
a keyword span while the body before it is styled as comment; a line end
carries the NOTE flag plus the level.  On the two-line input
`["NOTE outer NOTE inner ETON", "ETON"]` the first line leaves the
comment open at level 1 (state `0x20 + 1·0x200`) and the second line's
`ETON` closes it, re-colored as keyword. -/
theorem algol68_C2 :
    (∀ (str : List Nat) (colstate level i start : Nat),
      1 ≤ level → i ≤ str.length →
      noteBody str colstate level i start =
        match specNoteRun (str.drop i) level with
        | .closed j e => (setStyle start (i + j) ALGOL68_STYLE_COMMENT,
                          clearBits colstate IN_ALGOL68_COMMENT,
                          i + e, i + j, ALGOL68_STYLE_KEYWORD)
        | .openLevel l => ([], colstate ||| l * IN_ALGOL68_COMMENT_LEVEL,
                           str.length, start, ALGOL68_STYLE_COMMENT))
    ∧ (algol68_colorize_line (cp ("NOTE outer NOTE inner ETON")) 0).state =
        IN_ALGOL68_COMMENT_NOTE ||| 1 * IN_ALGOL68_COMMENT_LEVEL
    ∧ algol68_colorize_line (cp ("ETON"))
        (IN_ALGOL68_COMMENT_NOTE ||| 1 * IN_ALGOL68_COMMENT_LEVEL) =
        ⟨[(0, 4, ALGOL68_STYLE_KEYWORD)], 0, false⟩ := by
  refine ⟨fun str colstate level i start hl hi =>
    noteBody_spec str colstate level i start hl hi, ?_, ?_⟩
  · simp +decide [algol68_colorize_line, mainLoop, algol68_get_tag, algol68_tag_go,
      charBody, braceBody, stringBody, numBody, kwBody, noteBody, funcLookahead,
      readAt, setStyle, clearBits, strfind, algol68_keywords, algol68_types, cp,
      qe_isalpha, qe_isupper, qe_islower, qe_isdigit, qe_isalnum, qe_isalnum_,
      qe_isblank, qe_tolower, IN_ALGOL68_COMMENT, IN_ALGOL68_COMMENT_COMMENT,
      IN_ALGOL68_COMMENT_CO, IN_ALGOL68_COMMENT_SHARP, IN_ALGOL68_COMMENT_CENT,
      IN_ALGOL68_COMMENT_POUND, IN_ALGOL68_COMMENT_BRACES, IN_ALGOL68_COMMENT_NOTE,
      IN_ALGOL68_COMMENT_PR, IN_ALGOL68_STRING, IN_ALGOL68_CONTINUATION,
      IN_ALGOL68_COMMENT_LEVEL, ALGOL68_STYLE_COMMENT, ALGOL68_STYLE_KEYWORD]
  · simp +decide [algol68_colorize_line, mainLoop, algol68_get_tag, algol68_tag_go,
      charBody, braceBody, stringBody, numBody, kwBody, noteBody, funcLookahead,
      readAt, setStyle, clearBits, strfind, algol68_keywords, algol68_types, cp,
      qe_isalpha, qe_isupper, qe_islower, qe_isdigit, qe_isalnum, qe_isalnum_,
      qe_isblank, qe_tolower, IN_ALGOL68_COMMENT, IN_ALGOL68_COMMENT_COMMENT,
      IN_ALGOL68_COMMENT_CO, IN_ALGOL68_COMMENT_SHARP, IN_ALGOL68_COMMENT_CENT,
      IN_ALGOL68_COMMENT_POUND, IN_ALGOL68_COMMENT_BRACES, IN_ALGOL68_COMMENT_NOTE,
      IN_ALGOL68_COMMENT_PR, IN_ALGOL68_STRING, IN_ALGOL68_CONTINUATION,
      IN_ALGOL68_COMMENT_LEVEL, ALGOL68_STYLE_COMMENT, ALGOL68_STYLE_KEYWORD]

theorem algol68_C2_witness :
    noteBody [110, 32, 101, 116, 111, 110] 0 1 0 0 =
      match specNoteRun ([110, 32, 101, 116, 111, 110].drop 0) 1 with
      | .closed j e => (setStyle 0 (0 + j) ALGOL68_STYLE_COMMENT,
                        clearBits 0 IN_ALGOL68_COMMENT,
                        0 + e, 0 + j, ALGOL68_STYLE_KEYWORD)
      | .openLevel l => ([], 0 ||| l * IN_ALGOL68_COMMENT_LEVEL,
                         [110, 32, 101, 116, 111, 110].length, 0,
                         ALGOL68_STYLE_COMMENT) :=
  algol68_C2.1 [110, 32, 101, 116, 111, 110] 0 1 0 0 (by decide) (by decide)

end Algol68

namespace Algol68

/-- C7 counterexample: the broken tag `aaaaaaaaaaaaaaaA\` (15 `a`s, an
uppercase `A` beyond the 15-character tag buffer, then a line-final
backslash) *does* contain an uppercase letter, yet the scanner styles it
as identifier, not type: the case flag only reflects the stored prefix. -/
theorem algol68_C7_counterexample :
    styleAt (algol68_colorize_line (cp ("aaaaaaaaaaaaaaaA\\")) 0).spans 0 =
      ALGOL68_STYLE_IDENTIFIER
    ∧ ALGOL68_STYLE_IDENTIFIER ≠ ALGOL68_STYLE_TYPE := by
  refine ⟨?_, by decide⟩
  simp +decide [algol68_colorize_line, mainLoop, algol68_get_tag, algol68_tag_go, charBody, braceBody, stringBody, numBody, kwBody, noteBody, funcLookahead, readAt, setStyle, clearBits, strfind, algol68_keywords, algol68_types, cp, qe_isalpha, qe_isupper, qe_islower, qe_isdigit, qe_isalnum, qe_isalnum_, qe_isblank, qe_tolower, wordRun, wordChars, styleAt, IN_ALGOL68_COMMENT, IN_ALGOL68_COMMENT_COMMENT, IN_ALGOL68_COMMENT_CO, IN_ALGOL68_COMMENT_SHARP, IN_ALGOL68_COMMENT_CENT, IN_ALGOL68_COMMENT_POUND, IN_ALGOL68_COMMENT_BRACES, IN_ALGOL68_COMMENT_NOTE, IN_ALGOL68_COMMENT_PR, IN_ALGOL68_STRING, IN_ALGOL68_CONTINUATION, IN_ALGOL68_COMMENT_LEVEL, ALGOL68_STYLE_TEXT, ALGOL68_STYLE_KEYWORD, ALGOL68_STYLE_TYPE, ALGOL68_STYLE_PREPROCESS, ALGOL68_STYLE_COMMENT, ALGOL68_STYLE_STRING, ALGOL68_STYLE_IDENTIFIER, ALGOL68_STYLE_NUMBER, ALGOL68_STYLE_FUNCTION]

/-- C7 (amended): when an extracted tag ends exactly one position before
line end and that position holds `\`, the scanner styles the whole span
(tag and backslash) as type if the extractor recorded an uppercase letter
among the stored (first 15) characters and as identifier otherwise, and
returns the state with the tag-continuation flag set; on the next call,
a leading word character makes the scanner consume the leading word run as
a token of its own, styled by that extraction's own case flag — the
continuation is not merged with the first line's tag: its span covers
exactly the run `[0, 1 + wordRun)` and normal scanning continues after
it. -/
theorem algol68_C7 :
    (∀ (str : List Nat) (colstate i : Nat) (oob : Bool),
      i < str.length →
      qe_isalpha (str.getD i 0) = true →
      i + 1 + (algol68_get_tag 16 (str.getD i 0) str (i + 1) str.length).ret =
        str.length - 1 →
      str.getD (i + 1 + (algol68_get_tag 16 (str.getD i 0) str (i + 1)
        str.length).ret) 0 = 92 →
      mainLoop str colstate i oob =
        ⟨setStyle i str.length
           (if ((algol68_get_tag 16 (str.getD i 0) str (i + 1)
              str.length).flags &&& 1) != 0
            then ALGOL68_STYLE_TYPE else ALGOL68_STYLE_IDENTIFIER),
         colstate ||| IN_ALGOL68_CONTINUATION, oob⟩)
    ∧ (∀ (str : List Nat) (st : Nat),
        st &&& IN_ALGOL68_COMMENT = 0 → st &&& IN_ALGOL68_STRING = 0 →
        (st &&& IN_ALGOL68_CONTINUATION) ≠ 0 →
        0 < str.length → qe_isalnum_ (str.getD 0 0) = true →
        algol68_colorize_line str st =
          (let rest := mainLoop str
             (clearBits st IN_ALGOL68_CONTINUATION ||| IN_ALGOL68_CONTINUATION)
             (1 + wordRun str 1) false
           ⟨setStyle 0 (1 + wordRun str 1)
              (if ((algol68_get_tag 16 (str.getD 0 0) str 1
                 str.length).flags &&& 1) != 0
               then ALGOL68_STYLE_TYPE else ALGOL68_STYLE_IDENTIFIER) ++
              rest.spans,
            rest.state, rest.oob⟩)) := by
  constructor
  · intro str colstate i oob hi hc hbrk hbs
    rw [mainLoop_alpha str colstate i oob hi hc]
    simp only []
    rw [if_pos (show ((i + 1 + (algol68_get_tag 16 (str.getD i 0) str (i + 1)
        str.length).ret == str.length - 1) &&
        (str.getD (i + 1 + (algol68_get_tag 16 (str.getD i 0) str (i + 1)
          str.length).ret) 0 == 92)) = true by
      rw [Bool.and_eq_true]
      exact ⟨beq_iff_eq.mpr hbrk, beq_iff_eq.mpr hbs⟩)]
    have hn : i + 1 + (algol68_get_tag 16 (str.getD i 0) str (i + 1)
        str.length).ret + 1 = str.length := by
      have := wordRun_le str (i + 1)
      have hr : (algol68_get_tag 16 (str.getD i 0) str (i + 1) str.length).ret =
          wordRun str (i + 1) := by rw [algol68_get_tag_spec]
      omega
    rw [hn, mainLoop_end str _ oob (le_refl _)]
    simp
  · intro str st h7 h8 h10 hlen halnum
    rw [colorize_resume_cont str st h7 h8 h10]
    simp only []
    rw [if_pos (show (decide (0 < str.length) && qe_isalnum_ (str.getD 0 0)) = true by
      simp [hlen]
      rw [← getD_eq_getElem_of_lt hlen]
      exact halnum)]
    have hr : (algol68_get_tag 16 (str.getD 0 0) str 1 str.length).ret =
        wordRun str 1 := by rw [algol68_get_tag_spec]
    rw [hr]

theorem algol68_C7_witness :
    mainLoop (cp ("Foo\\")) 0 0 false =
      ⟨setStyle 0 (cp ("Foo\\")).length
         (if ((algol68_get_tag 16 ((cp ("Foo\\")).getD 0 0) (cp ("Foo\\")) 1
            (cp ("Foo\\")).length).flags &&& 1) != 0
          then ALGOL68_STYLE_TYPE else ALGOL68_STYLE_IDENTIFIER),
       0 ||| IN_ALGOL68_CONTINUATION, false⟩ :=
  algol68_C7.1 (cp ("Foo\\")) 0 0 false (by decide) (by decide)
    (by simp [algol68_colorize_line, mainLoop, algol68_get_tag, algol68_tag_go, charBody, braceBody, stringBody, numBody, kwBody, noteBody, funcLookahead, readAt, setStyle, clearBits, strfind, algol68_keywords, algol68_types, cp, qe_isalpha, qe_isupper, qe_islower, qe_isdigit, qe_isalnum, qe_isalnum_, qe_isblank, qe_tolower, wordRun, wordChars, styleAt, IN_ALGOL68_COMMENT, IN_ALGOL68_COMMENT_COMMENT, IN_ALGOL68_COMMENT_CO, IN_ALGOL68_COMMENT_SHARP, IN_ALGOL68_COMMENT_CENT, IN_ALGOL68_COMMENT_POUND, IN_ALGOL68_COMMENT_BRACES, IN_ALGOL68_COMMENT_NOTE, IN_ALGOL68_COMMENT_PR, IN_ALGOL68_STRING, IN_ALGOL68_CONTINUATION, IN_ALGOL68_COMMENT_LEVEL, ALGOL68_STYLE_TEXT, ALGOL68_STYLE_KEYWORD, ALGOL68_STYLE_TYPE, ALGOL68_STYLE_PREPROCESS, ALGOL68_STYLE_COMMENT, ALGOL68_STYLE_STRING, ALGOL68_STYLE_IDENTIFIER, ALGOL68_STYLE_NUMBER, ALGOL68_STYLE_FUNCTION]) (by simp [algol68_colorize_line, mainLoop, algol68_get_tag, algol68_tag_go, charBody, braceBody, stringBody, numBody, kwBody, noteBody, funcLookahead, readAt, setStyle, clearBits, strfind, algol68_keywords, algol68_types, cp, qe_isalpha, qe_isupper, qe_islower, qe_isdigit, qe_isalnum, qe_isalnum_, qe_isblank, qe_tolower, wordRun, wordChars, styleAt, IN_ALGOL68_COMMENT, IN_ALGOL68_COMMENT_COMMENT, IN_ALGOL68_COMMENT_CO, IN_ALGOL68_COMMENT_SHARP, IN_ALGOL68_COMMENT_CENT, IN_ALGOL68_COMMENT_POUND, IN_ALGOL68_COMMENT_BRACES, IN_ALGOL68_COMMENT_NOTE, IN_ALGOL68_COMMENT_PR, IN_ALGOL68_STRING, IN_ALGOL68_CONTINUATION, IN_ALGOL68_COMMENT_LEVEL, ALGOL68_STYLE_TEXT, ALGOL68_STYLE_KEYWORD, ALGOL68_STYLE_TYPE, ALGOL68_STYLE_PREPROCESS, ALGOL68_STYLE_COMMENT, ALGOL68_STYLE_STRING, ALGOL68_STYLE_IDENTIFIER, ALGOL68_STYLE_NUMBER, ALGOL68_STYLE_FUNCTION])

end Algol68

namespace Algol68

/-- C8 counterexample: on `foo  (x)` the next non-blank code point after
the untabled all-lowercase word `foo` is `(`, so the claim demands the
function style; the code only skips a single blank, sees the second blank,
and styles `foo` as identifier. -/
theorem algol68_C8_counterexample :
    styleAt (algol68_colorize_line (cp ("foo  (x)")) 0).spans 0 =
      ALGOL68_STYLE_IDENTIFIER
    ∧ ALGOL68_STYLE_IDENTIFIER ≠ ALGOL68_STYLE_FUNCTION := by
  refine ⟨?_, by decide⟩
  simp +decide [algol68_colorize_line, mainLoop, algol68_get_tag, algol68_tag_go, charBody, braceBody, stringBody, numBody, kwBody, noteBody, funcLookahead, readAt, setStyle, clearBits, strfind, algol68_keywords, algol68_types, cp, qe_isalpha, qe_isupper, qe_islower, qe_isdigit, qe_isalnum, qe_isalnum_, qe_isblank, qe_tolower, wordRun, wordChars, styleAt, IN_ALGOL68_COMMENT, IN_ALGOL68_COMMENT_COMMENT, IN_ALGOL68_COMMENT_CO, IN_ALGOL68_COMMENT_SHARP, IN_ALGOL68_COMMENT_CENT, IN_ALGOL68_COMMENT_POUND, IN_ALGOL68_COMMENT_BRACES, IN_ALGOL68_COMMENT_NOTE, IN_ALGOL68_COMMENT_PR, IN_ALGOL68_STRING, IN_ALGOL68_CONTINUATION, IN_ALGOL68_COMMENT_LEVEL, ALGOL68_STYLE_TEXT, ALGOL68_STYLE_KEYWORD, ALGOL68_STYLE_TYPE, ALGOL68_STYLE_PREPROCESS, ALGOL68_STYLE_COMMENT, ALGOL68_STYLE_STRING, ALGOL68_STYLE_IDENTIFIER, ALGOL68_STYLE_NUMBER, ALGOL68_STYLE_FUNCTION]

/-- C8 (amended): a word that is not a comment keyword and not broken by a
trailing backslash is styled keyword if its folded tag is in the keyword
table; else type if the tag is in the type table or the extractor recorded
an uppercase letter among the stored (first 15) characters — so `Foo` with
no table membership is styled type; else by the function lookahead, which
skips *at most one* blank after the word and styles the word as function
exactly when the code point there is `(` not immediately followed by `*`
(positions past the line end read as out-of-bounds), else identifier —
so `foo` alone is an identifier, `foo (x)` a function call, and
`foo (*` an identifier. -/
theorem algol68_C8 :
    (∀ (str : List Nat) (colstate i : Nat) (oob : Bool),
      i < str.length →
      qe_isalpha (str.getD i 0) = true →
      ((i + 1 + (algol68_get_tag 16 (str.getD i 0) str (i + 1) str.length).ret ==
          str.length - 1) &&
        (str.getD (i + 1 + (algol68_get_tag 16 (str.getD i 0) str (i + 1)
          str.length).ret) 0 == 92)) = false →
      (algol68_get_tag 16 (str.getD i 0) str (i + 1) str.length).kbuf ≠ cp ("note") →
      (algol68_get_tag 16 (str.getD i 0) str (i + 1) str.length).kbuf ≠ cp ("comment") →
      (algol68_get_tag 16 (str.getD i 0) str (i + 1) str.length).kbuf ≠ cp ("co") →
      (algol68_get_tag 16 (str.getD i 0) str (i + 1) str.length).kbuf ≠ cp ("pr") →
      mainLoop str colstate i oob =
        (let t := algol68_get_tag 16 (str.getD i 0) str (i + 1) str.length
         let i2 := i + 1 + t.ret
         if strfind algol68_keywords t.kbuf then
           let rest := mainLoop str colstate i2 oob
           ⟨setStyle i i2 ALGOL68_STYLE_KEYWORD ++ rest.spans, rest.state, rest.oob⟩
         else if strfind algol68_types t.kbuf || (t.flags &&& 1) != 0 then
           let rest := mainLoop str colstate i2 oob
           ⟨setStyle i i2 ALGOL68_STYLE_TYPE ++ rest.spans, rest.state, rest.oob⟩
         else
           let la := funcLookahead str i2
           let rest := mainLoop str colstate i2 (oob || la.2)
           ⟨setStyle i i2 la.1 ++ rest.spans, rest.state, rest.oob⟩))
    ∧ styleAt (algol68_colorize_line (cp ("Foo")) 0).spans 0 = ALGOL68_STYLE_TYPE
    ∧ styleAt (algol68_colorize_line (cp ("foo")) 0).spans 0 =
        ALGOL68_STYLE_IDENTIFIER
    ∧ styleAt (algol68_colorize_line (cp ("foo (x)")) 0).spans 0 =
        ALGOL68_STYLE_FUNCTION
    ∧ styleAt (algol68_colorize_line (cp ("foo (*")) 0).spans 0 =
        ALGOL68_STYLE_IDENTIFIER := by
  refine ⟨?_, by simp +decide [algol68_colorize_line, mainLoop, algol68_get_tag, algol68_tag_go, charBody, braceBody, stringBody, numBody, kwBody, noteBody, funcLookahead, readAt, setStyle, clearBits, strfind, algol68_keywords, algol68_types, cp, qe_isalpha, qe_isupper, qe_islower, qe_isdigit, qe_isalnum, qe_isalnum_, qe_isblank, qe_tolower, wordRun, wordChars, styleAt, IN_ALGOL68_COMMENT, IN_ALGOL68_COMMENT_COMMENT, IN_ALGOL68_COMMENT_CO, IN_ALGOL68_COMMENT_SHARP, IN_ALGOL68_COMMENT_CENT, IN_ALGOL68_COMMENT_POUND, IN_ALGOL68_COMMENT_BRACES, IN_ALGOL68_COMMENT_NOTE, IN_ALGOL68_COMMENT_PR, IN_ALGOL68_STRING, IN_ALGOL68_CONTINUATION, IN_ALGOL68_COMMENT_LEVEL, ALGOL68_STYLE_TEXT, ALGOL68_STYLE_KEYWORD, ALGOL68_STYLE_TYPE, ALGOL68_STYLE_PREPROCESS, ALGOL68_STYLE_COMMENT, ALGOL68_STYLE_STRING, ALGOL68_STYLE_IDENTIFIER, ALGOL68_STYLE_NUMBER, ALGOL68_STYLE_FUNCTION], by simp +decide [algol68_colorize_line, mainLoop, algol68_get_tag, algol68_tag_go, charBody, braceBody, stringBody, numBody, kwBody, noteBody, funcLookahead, readAt, setStyle, clearBits, strfind, algol68_keywords, algol68_types, cp, qe_isalpha, qe_isupper, qe_islower, qe_isdigit, qe_isalnum, qe_isalnum_, qe_isblank, qe_tolower, wordRun, wordChars, styleAt, IN_ALGOL68_COMMENT, IN_ALGOL68_COMMENT_COMMENT, IN_ALGOL68_COMMENT_CO, IN_ALGOL68_COMMENT_SHARP, IN_ALGOL68_COMMENT_CENT, IN_ALGOL68_COMMENT_POUND, IN_ALGOL68_COMMENT_BRACES, IN_ALGOL68_COMMENT_NOTE, IN_ALGOL68_COMMENT_PR, IN_ALGOL68_STRING, IN_ALGOL68_CONTINUATION, IN_ALGOL68_COMMENT_LEVEL, ALGOL68_STYLE_TEXT, ALGOL68_STYLE_KEYWORD, ALGOL68_STYLE_TYPE, ALGOL68_STYLE_PREPROCESS, ALGOL68_STYLE_COMMENT, ALGOL68_STYLE_STRING, ALGOL68_STYLE_IDENTIFIER, ALGOL68_STYLE_NUMBER, ALGOL68_STYLE_FUNCTION],
    by simp +decide [algol68_colorize_line, mainLoop, algol68_get_tag, algol68_tag_go, charBody, braceBody, stringBody, numBody, kwBody, noteBody, funcLookahead, readAt, setStyle, clearBits, strfind, algol68_keywords, algol68_types, cp, qe_isalpha, qe_isupper, qe_islower, qe_isdigit, qe_isalnum, qe_isalnum_, qe_isblank, qe_tolower, wordRun, wordChars, styleAt, IN_ALGOL68_COMMENT, IN_ALGOL68_COMMENT_COMMENT, IN_ALGOL68_COMMENT_CO, IN_ALGOL68_COMMENT_SHARP, IN_ALGOL68_COMMENT_CENT, IN_ALGOL68_COMMENT_POUND, IN_ALGOL68_COMMENT_BRACES, IN_ALGOL68_COMMENT_NOTE, IN_ALGOL68_COMMENT_PR, IN_ALGOL68_STRING, IN_ALGOL68_CONTINUATION, IN_ALGOL68_COMMENT_LEVEL, ALGOL68_STYLE_TEXT, ALGOL68_STYLE_KEYWORD, ALGOL68_STYLE_TYPE, ALGOL68_STYLE_PREPROCESS, ALGOL68_STYLE_COMMENT, ALGOL68_STYLE_STRING, ALGOL68_STYLE_IDENTIFIER, ALGOL68_STYLE_NUMBER, ALGOL68_STYLE_FUNCTION], by simp +decide [algol68_colorize_line, mainLoop, algol68_get_tag, algol68_tag_go, charBody, braceBody, stringBody, numBody, kwBody, noteBody, funcLookahead, readAt, setStyle, clearBits, strfind, algol68_keywords, algol68_types, cp, qe_isalpha, qe_isupper, qe_islower, qe_isdigit, qe_isalnum, qe_isalnum_, qe_isblank, qe_tolower, wordRun, wordChars, styleAt, IN_ALGOL68_COMMENT, IN_ALGOL68_COMMENT_COMMENT, IN_ALGOL68_COMMENT_CO, IN_ALGOL68_COMMENT_SHARP, IN_ALGOL68_COMMENT_CENT, IN_ALGOL68_COMMENT_POUND, IN_ALGOL68_COMMENT_BRACES, IN_ALGOL68_COMMENT_NOTE, IN_ALGOL68_COMMENT_PR, IN_ALGOL68_STRING, IN_ALGOL68_CONTINUATION, IN_ALGOL68_COMMENT_LEVEL, ALGOL68_STYLE_TEXT, ALGOL68_STYLE_KEYWORD, ALGOL68_STYLE_TYPE, ALGOL68_STYLE_PREPROCESS, ALGOL68_STYLE_COMMENT, ALGOL68_STYLE_STRING, ALGOL68_STYLE_IDENTIFIER, ALGOL68_STYLE_NUMBER, ALGOL68_STYLE_FUNCTION]⟩
  intro str colstate i oob hi hc hbrk hnote hcomment hco hpr
  rw [mainLoop_alpha str colstate i oob hi hc]
  simp only []
  rw [if_neg (show ¬(((i + 1 + (algol68_get_tag 16 (str.getD i 0) str (i + 1)
      str.length).ret == str.length - 1) &&
      (str.getD (i + 1 + (algol68_get_tag 16 (str.getD i 0) str (i + 1)
        str.length).ret) 0 == 92)) = true) by rw [hbrk]; decide),
    if_neg (show ¬(((algol68_get_tag 16 (str.getD i 0) str (i + 1)
      str.length).kbuf == cp ("note")) = true) by
      intro h
      exact hnote (beq_iff_eq.mp h)),
    if_neg (show ¬(((algol68_get_tag 16 (str.getD i 0) str (i + 1)
      str.length).kbuf == cp ("comment")) = true) by
      intro h
      exact hcomment (beq_iff_eq.mp h)),
    if_neg (show ¬(((algol68_get_tag 16 (str.getD i 0) str (i + 1)
      str.length).kbuf == cp ("co")) = true) by
      intro h
      exact hco (beq_iff_eq.mp h)),
    if_neg (show ¬(((algol68_get_tag 16 (str.getD i 0) str (i + 1)
      str.length).kbuf == cp ("pr")) = true) by
      intro h
      exact hpr (beq_iff_eq.mp h))]

theorem algol68_C8_witness :
    mainLoop (cp ("begin")) 7 0 false =
      (let t := algol68_get_tag 16 ((cp ("begin")).getD 0 0) (cp ("begin")) 1
         (cp ("begin")).length
       let i2 := 0 + 1 + t.ret
       if strfind algol68_keywords t.kbuf then
         let rest := mainLoop (cp ("begin")) 7 i2 false
         ⟨setStyle 0 i2 ALGOL68_STYLE_KEYWORD ++ rest.spans, rest.state, rest.oob⟩
       else if strfind algol68_types t.kbuf || (t.flags &&& 1) != 0 then
         let rest := mainLoop (cp ("begin")) 7 i2 false
         ⟨setStyle 0 i2 ALGOL68_STYLE_TYPE ++ rest.spans, rest.state, rest.oob⟩
       else
         let la := funcLookahead (cp ("begin")) i2
         let rest := mainLoop (cp ("begin")) 7 i2 (false || la.2)
         ⟨setStyle 0 i2 la.1 ++ rest.spans, rest.state, rest.oob⟩) :=
  algol68_C8.1 (cp ("begin")) 7 0 false (by decide) (by decide)
    (by simp [algol68_colorize_line, mainLoop, algol68_get_tag, algol68_tag_go, charBody, braceBody, stringBody, numBody, kwBody, noteBody, funcLookahead, readAt, setStyle, clearBits, strfind, algol68_keywords, algol68_types, cp, qe_isalpha, qe_isupper, qe_islower, qe_isdigit, qe_isalnum, qe_isalnum_, qe_isblank, qe_tolower, wordRun, wordChars, styleAt, IN_ALGOL68_COMMENT, IN_ALGOL68_COMMENT_COMMENT, IN_ALGOL68_COMMENT_CO, IN_ALGOL68_COMMENT_SHARP, IN_ALGOL68_COMMENT_CENT, IN_ALGOL68_COMMENT_POUND, IN_ALGOL68_COMMENT_BRACES, IN_ALGOL68_COMMENT_NOTE, IN_ALGOL68_COMMENT_PR, IN_ALGOL68_STRING, IN_ALGOL68_CONTINUATION, IN_ALGOL68_COMMENT_LEVEL, ALGOL68_STYLE_TEXT, ALGOL68_STYLE_KEYWORD, ALGOL68_STYLE_TYPE, ALGOL68_STYLE_PREPROCESS, ALGOL68_STYLE_COMMENT, ALGOL68_STYLE_STRING, ALGOL68_STYLE_IDENTIFIER, ALGOL68_STYLE_NUMBER, ALGOL68_STYLE_FUNCTION]) (by simp [algol68_colorize_line, mainLoop, algol68_get_tag, algol68_tag_go, charBody, braceBody, stringBody, numBody, kwBody, noteBody, funcLookahead, readAt, setStyle, clearBits, strfind, algol68_keywords, algol68_types, cp, qe_isalpha, qe_isupper, qe_islower, qe_isdigit, qe_isalnum, qe_isalnum_, qe_isblank, qe_tolower, wordRun, wordChars, styleAt, IN_ALGOL68_COMMENT, IN_ALGOL68_COMMENT_COMMENT, IN_ALGOL68_COMMENT_CO, IN_ALGOL68_COMMENT_SHARP, IN_ALGOL68_COMMENT_CENT, IN_ALGOL68_COMMENT_POUND, IN_ALGOL68_COMMENT_BRACES, IN_ALGOL68_COMMENT_NOTE, IN_ALGOL68_COMMENT_PR, IN_ALGOL68_STRING, IN_ALGOL68_CONTINUATION, IN_ALGOL68_COMMENT_LEVEL, ALGOL68_STYLE_TEXT, ALGOL68_STYLE_KEYWORD, ALGOL68_STYLE_TYPE, ALGOL68_STYLE_PREPROCESS, ALGOL68_STYLE_COMMENT, ALGOL68_STYLE_STRING, ALGOL68_STYLE_IDENTIFIER, ALGOL68_STYLE_NUMBER, ALGOL68_STYLE_FUNCTION]) (by simp [algol68_colorize_line, mainLoop, algol68_get_tag, algol68_tag_go, charBody, braceBody, stringBody, numBody, kwBody, noteBody, funcLookahead, readAt, setStyle, clearBits, strfind, algol68_keywords, algol68_types, cp, qe_isalpha, qe_isupper, qe_islower, qe_isdigit, qe_isalnum, qe_isalnum_, qe_isblank, qe_tolower, wordRun, wordChars, styleAt, IN_ALGOL68_COMMENT, IN_ALGOL68_COMMENT_COMMENT, IN_ALGOL68_COMMENT_CO, IN_ALGOL68_COMMENT_SHARP, IN_ALGOL68_COMMENT_CENT, IN_ALGOL68_COMMENT_POUND, IN_ALGOL68_COMMENT_BRACES, IN_ALGOL68_COMMENT_NOTE, IN_ALGOL68_COMMENT_PR, IN_ALGOL68_STRING, IN_ALGOL68_CONTINUATION, IN_ALGOL68_COMMENT_LEVEL, ALGOL68_STYLE_TEXT, ALGOL68_STYLE_KEYWORD, ALGOL68_STYLE_TYPE, ALGOL68_STYLE_PREPROCESS, ALGOL68_STYLE_COMMENT, ALGOL68_STYLE_STRING, ALGOL68_STYLE_IDENTIFIER, ALGOL68_STYLE_NUMBER, ALGOL68_STYLE_FUNCTION])
    (by simp [algol68_colorize_line, mainLoop, algol68_get_tag, algol68_tag_go, charBody, braceBody, stringBody, numBody, kwBody, noteBody, funcLookahead, readAt, setStyle, clearBits, strfind, algol68_keywords, algol68_types, cp, qe_isalpha, qe_isupper, qe_islower, qe_isdigit, qe_isalnum, qe_isalnum_, qe_isblank, qe_tolower, wordRun, wordChars, styleAt, IN_ALGOL68_COMMENT, IN_ALGOL68_COMMENT_COMMENT, IN_ALGOL68_COMMENT_CO, IN_ALGOL68_COMMENT_SHARP, IN_ALGOL68_COMMENT_CENT, IN_ALGOL68_COMMENT_POUND, IN_ALGOL68_COMMENT_BRACES, IN_ALGOL68_COMMENT_NOTE, IN_ALGOL68_COMMENT_PR, IN_ALGOL68_STRING, IN_ALGOL68_CONTINUATION, IN_ALGOL68_COMMENT_LEVEL, ALGOL68_STYLE_TEXT, ALGOL68_STYLE_KEYWORD, ALGOL68_STYLE_TYPE, ALGOL68_STYLE_PREPROCESS, ALGOL68_STYLE_COMMENT, ALGOL68_STYLE_STRING, ALGOL68_STYLE_IDENTIFIER, ALGOL68_STYLE_NUMBER, ALGOL68_STYLE_FUNCTION]) (by simp [algol68_colorize_line, mainLoop, algol68_get_tag, algol68_tag_go, charBody, braceBody, stringBody, numBody, kwBody, noteBody, funcLookahead, readAt, setStyle, clearBits, strfind, algol68_keywords, algol68_types, cp, qe_isalpha, qe_isupper, qe_islower, qe_isdigit, qe_isalnum, qe_isalnum_, qe_isblank, qe_tolower, wordRun, wordChars, styleAt, IN_ALGOL68_COMMENT, IN_ALGOL68_COMMENT_COMMENT, IN_ALGOL68_COMMENT_CO, IN_ALGOL68_COMMENT_SHARP, IN_ALGOL68_COMMENT_CENT, IN_ALGOL68_COMMENT_POUND, IN_ALGOL68_COMMENT_BRACES, IN_ALGOL68_COMMENT_NOTE, IN_ALGOL68_COMMENT_PR, IN_ALGOL68_STRING, IN_ALGOL68_CONTINUATION, IN_ALGOL68_COMMENT_LEVEL, ALGOL68_STYLE_TEXT, ALGOL68_STYLE_KEYWORD, ALGOL68_STYLE_TYPE, ALGOL68_STYLE_PREPROCESS, ALGOL68_STYLE_COMMENT, ALGOL68_STYLE_STRING, ALGOL68_STYLE_IDENTIFIER, ALGOL68_STYLE_NUMBER, ALGOL68_STYLE_FUNCTION])

end Algol68
